import Mathlib

/-!
Verification development for the triple-double repository: a shallow
embedding of the Double Ratchet session with header encryption
(`lib/session.js`), its utility layer (`lib/util.js`), and the X3DH
handshake portions of `lib/client.js`, together with theorems settling
the specification claims.

Byte strings (node `Buffer`s) are modelled as `List Nat`.  The external
cryptographic primitives consumed from third-party libraries
(`crypto.createHmac`, AES-256-CBC via `crypto.createCipheriv`, and
`nacl.scalarMult`) are not code of this repository; the embedding is
parameterised over them by a `Prims` structure, and every piece of
repository code (the HKDF loop, the session state machine, the client
handshake derivations) is translated directly from the source.
Randomness (`nacl.randomBytes`, fresh key pairs) is passed in as
explicit arguments.
-/

set_option maxRecDepth 40000

/-- Byte strings: node Buffers as lists of naturals. -/
abbrev Bytes := List Nat

/-- A Curve25519 key pair as produced by `util.genKeyPair`. -/
structure KeyPair where
  pubKey : Bytes
  privKey : Bytes
deriving DecidableEq, Repr

/-- The external cryptographic primitives the repository consumes from
third-party libraries.  `aesDecrypt` is partial because AES-CBC
unpadding can reject (node throws); it returns `none` in that case. -/
structure Prims where
  hmac : Bytes → Bytes → Bytes
  aesEncrypt : Bytes → Bytes → Bytes → Bytes
  aesDecrypt : Bytes → Bytes → Bytes → Option Bytes
  scalarMult : Bytes → Bytes → Bytes

/-- Model of `buf.slice(i)` for a nonnegative start index. -/
def bufSliceFrom (l : Bytes) (i : Nat) : Bytes := l.drop i

/-- Model of `buf.slice(i, j)` for nonnegative indices. -/
def bufSlice (l : Bytes) (i j : Nat) : Bytes := (l.take j).drop i

/-- Model of `buf.slice(-n)`: the last `n` bytes (the whole buffer when
it is shorter than `n`). -/
def bufSliceLastN (l : Bytes) (n : Nat) : Bytes := l.drop (l.length - n)

/-- Model of `buf.slice(0, -n)`: everything but the last `n` bytes. -/
def bufDropLastN (l : Bytes) (n : Nat) : Bytes := l.take (l.length - n)

/-- Model of `Buffer.writeUInt32BE`: the four big-endian bytes of a
value below 2^32 (the callers check the range separately, since node
throws on out-of-range values). -/
def writeUInt32BE (n : Nat) : Bytes :=
  [n / 2 ^ 24 % 256, n / 2 ^ 16 % 256, n / 2 ^ 8 % 256, n % 256]

/-- Model of `Buffer.readUInt32BE` on a 4-byte buffer. -/
def readUInt32BE (l : Bytes) : Nat :=
  l.getD 0 0 * 2 ^ 24 + l.getD 1 0 * 2 ^ 16 + l.getD 2 0 * 2 ^ 8 + l.getD 3 0

namespace Util

/-- The expansion loop of `util.hkdf` (lib/util.js lines 46-53): after
`i` rounds returns the current block `t` and the accumulated `okm`.
Round `i` (zero-based) mixes the counter byte `1 + i`. -/
def hkdfExpand (P : Prims) (key info : Bytes) : Nat → Bytes × Bytes
  | 0 => ([], [])
  | i + 1 =>
    let (t, okm) := hkdfExpand P key info i
    let t1 := P.hmac key (t ++ info ++ [(1 + i) % 256])
    (t1, okm ++ t1)

/-- `util.hkdf` (lib/util.js lines 42-56): extract with the salt
(32 zero bytes when absent), then expand `ceil(length / 32)` blocks and
truncate to `length`. -/
def hkdf (P : Prims) (ikm info : Bytes) (len : Nat) (salt : Option Bytes) : Bytes :=
  let salt := salt.getD (List.replicate 32 0)
  let key := P.hmac salt ikm
  ((hkdfExpand P key info ((len + 31) / 32)).2).take len

end Util

/-- The error outcomes the session and client code can surface.
`nullKeyMaterial` stands for the TypeError node crypto raises when key
material is still `null` (the NotReady condition of the spec);
`invalidHmac` is the "Invalid HMAC" error; `badPadding` an AES-CBC
unpadding rejection; `headerDecryptFailed` the "Failed to decrypt
header" error; `tooManySkipped` the "Cannot skip that many messages"
error; `writeOutOfRange` a `writeUInt32BE` range error; the last two
are the client handshake lookup failures. -/
inductive SessionError where
  | nullKeyMaterial
  | invalidHmac
  | badPadding
  | headerDecryptFailed
  | tooManySkipped
  | writeOutOfRange
  | unknownSignedPrekey
  | unknownOneTimePrekey
deriving DecidableEq, Repr

/-- One entry of the skipped-message buffer (lib/session.js line 305). -/
structure SkippedMsg where
  headerKey : Option Bytes
  msgKey : Bytes
  msgNum : Nat
deriving DecidableEq, Repr

/-- The Double Ratchet session state (lib/session.js lines 10-32).
Fields that the code checks for nullness (`chain` and `header` keys)
are `Option`s; `peerKey` and `dhOutput` are never read while null in
any reachable path, and are plain byte strings (null as `[]`). -/
structure Session where
  ad : Bytes
  info : Bytes
  pubKey : Bytes
  privKey : Bytes
  peerKey : Bytes
  dhOutput : Bytes
  rootKey : Bytes
  recvChainKey : Option Bytes
  sendChainKey : Option Bytes
  sendMsgNum : Nat
  recvMsgNum : Nat
  prevChainLen : Nat
  skippedMsgs : List SkippedMsg
  sendHeaderKey : Option Bytes
  sendNextHeaderKey : Option Bytes
  recvHeaderKey : Option Bytes
  recvNextHeaderKey : Option Bytes
deriving DecidableEq, Repr

namespace Session

/-- `Session.MAX_SKIP` (lib/session.js lines 34-36). -/
def MAX_SKIP : Nat := 10

/-- `Session.PUBKEY_LEN` (`nacl.box.publicKeyLength`). -/
def PUBKEY_LEN : Nat := 32

/-- The freshly constructed session (lib/session.js lines 10-32). -/
def mk0 : Session :=
  { ad := [], info := [], pubKey := [], privKey := [], peerKey := []
    dhOutput := [], rootKey := []
    recvChainKey := none, sendChainKey := none
    sendMsgNum := 0, recvMsgNum := 0, prevChainLen := 0
    skippedMsgs := []
    sendHeaderKey := none, sendNextHeaderKey := none
    recvHeaderKey := none, recvNextHeaderKey := none }

/-- `Session.prototype.dh` (lib/session.js lines 185-187). -/
def dh (P : Prims) (s : Session) : Session :=
  { s with dhOutput := P.scalarMult s.privKey s.peerKey }

/-- `Session.kdfChain` (lib/session.js lines 195-200): message key then
next chain key. -/
def kdfChain (P : Prims) (chainKey : Bytes) : Bytes × Bytes :=
  (P.hmac chainKey [1], P.hmac chainKey [2])

/-- `Session.prototype.kdfRoot` (lib/session.js lines 202-216).
Returns `(chainKey, nextHeaderKey)` and the session with the advanced
root key.  Note the source computes `chainKey = okm.slice(32)` (to the
end) and `nextHeaderKey = okm.slice(64)`. -/
def kdfRoot (P : Prims) (s : Session) : (Bytes × Bytes) × Session :=
  let okm := Util.hkdf P s.dhOutput s.info 96 (some s.rootKey)
  ((bufSliceFrom okm 32, bufSliceFrom okm 64),
   { s with rootKey := bufSlice okm 0 32 })

/-- `Session.authEncrypt` (lib/session.js lines 232-241). -/
def authEncrypt (P : Prims) (ikm info nonce plaintext : Bytes) : Bytes :=
  let okm := Util.hkdf P ikm info 80 none
  let encKey := bufSlice okm 0 32
  let authKey := bufSlice okm 32 64
  let iv := bufSliceFrom okm 64
  let ciphertext := P.aesEncrypt encKey iv plaintext
  let tag := P.hmac authKey nonce
  ciphertext ++ tag

/-- `Session.authDecrypt` (lib/session.js lines 243-259). -/
def authDecrypt (P : Prims) (ikm info nonce payload : Bytes) :
    Except SessionError Bytes :=
  let okm := Util.hkdf P ikm info 80 none
  let encKey := bufSlice okm 0 32
  let authKey := bufSlice okm 32 64
  let iv := bufSliceFrom okm 64
  let tag := bufSliceLastN payload 32
  if P.hmac authKey nonce = tag then
    match P.aesDecrypt encKey iv (bufDropLastN payload 32) with
    | some pt => .ok pt
    | none => .error .badPadding
  else .error .invalidHmac

/-- `Session.prototype.encryptHeader` (lib/session.js lines 261-278),
with the 16 random nonce bytes passed in.  The `writeUInt32BE` range
check node performs is made explicit; a null send header key makes the
inner `authEncrypt` throw. -/
def encryptHeader (P : Prims) (s : Session) (nonce16 : Bytes) :
    Except SessionError Bytes :=
  if s.prevChainLen < 2 ^ 32 ∧ s.sendMsgNum < 2 ^ 32 then
    let header := s.pubKey ++ writeUInt32BE s.prevChainLen ++ writeUInt32BE s.sendMsgNum
    match s.sendHeaderKey with
    | none => .error .nullKeyMaterial
    | some hk => .ok (authEncrypt P hk s.info nonce16 header ++ nonce16)
  else .error .writeOutOfRange

/-- The parsed cleartext header (lib/session.js lines 285-293). -/
structure HeaderObj where
  pubKey : Bytes
  prevChainLen : Nat
  msgNum : Nat
deriving DecidableEq, Repr

/-- `Session.prototype.decryptHeader` (lib/session.js lines 280-294),
including the null-key and too-short-header failure modes, which the
callers catch: all failures collapse to `none`. -/
def decryptHeader (P : Prims) (s : Session) (header : Bytes)
    (headerKey : Option Bytes) : Option HeaderObj :=
  match headerKey with
  | none => none
  | some hk =>
    let nonce := bufSliceLastN header 16
    let body := bufDropLastN header 16
    match authDecrypt P hk s.info nonce body with
    | .error _ => none
    | .ok hdr =>
      if hdr.length < PUBKEY_LEN + 8 then none
      else
        some { pubKey := bufSlice hdr 0 PUBKEY_LEN
               prevChainLen := readUInt32BE (bufSlice hdr PUBKEY_LEN (PUBKEY_LEN + 4))
               msgNum := readUInt32BE (bufSlice hdr (PUBKEY_LEN + 4) (PUBKEY_LEN + 8)) }

/-- `Session.prototype.encrypt` (lib/session.js lines 91-100), with the
header nonce passed in.  The pair also returns the session state at the
point the call returns or throws: a null sending chain key fails before
any mutation, while a failure in `encryptHeader` happens after
`kdfSendChain` has already advanced the chain. -/
def encrypt (P : Prims) (s : Session) (nonce16 plaintext : Bytes) :
    Except SessionError (Bytes × Bytes) × Session :=
  match s.sendChainKey with
  | none => (.error .nullKeyMaterial, s)
  | some ck =>
    let mk := (kdfChain P ck).1
    let s1 := { s with sendChainKey := some (kdfChain P ck).2 }
    match encryptHeader P s1 nonce16 with
    | .error e => (.error e, s1)
    | .ok header =>
      let nonce := s1.ad ++ header
      let payload := authEncrypt P mk s1.info nonce plaintext
      (.ok (header, payload), { s1 with sendMsgNum := s1.sendMsgNum + 1 })

/-- The inner loop of `Session.prototype.skipMsgs` (lib/session.js
lines 303-306): starting from chain key `ck` at message number `n`,
derive `k` message keys; returns the new buffer entries in order and
the final chain key. -/
def skipLoop (P : Prims) (hk : Option Bytes) : Bytes → Nat → Nat → List SkippedMsg × Bytes
  | ck, _, 0 => ([], ck)
  | ck, n, k + 1 =>
    let mk := (kdfChain P ck).1
    let ck1 := (kdfChain P ck).2
    let (rest, ckf) := skipLoop P hk ck1 (n + 1) k
    ({ headerKey := hk, msgKey := mk, msgNum := n } :: rest, ckf)

/-- `Session.prototype.skipMsgs` (lib/session.js lines 296-307).  The
bound check happens before anything is mutated; with a null receiving
chain key the call is a no-op; otherwise the skipped keys are appended
and the receive counter is advanced (the loop leaves it unchanged when
`untl` is not larger). -/
def skipMsgs (P : Prims) (s : Session) (untl : Nat) :
    Except SessionError Unit × Session :=
  if s.recvMsgNum + MAX_SKIP < untl then (.error .tooManySkipped, s)
  else
    match s.recvChainKey with
    | none => (.ok (), s)
    | some ck =>
      let (entries, ck1) := skipLoop P s.recvHeaderKey ck s.recvMsgNum (untl - s.recvMsgNum)
      (.ok (), { s with
        recvChainKey := some ck1
        recvMsgNum := max s.recvMsgNum untl
        skippedMsgs := s.skippedMsgs ++ entries })

/-- The scan over the skipped-message buffer at the top of
`Session.prototype.decrypt` (lib/session.js lines 114-128): the first
entry whose header key decrypts the header with a matching message
number is returned together with the buffer with that entry spliced
out. -/
def findSkipped (P : Prims) (s : Session) (header : Bytes) :
    List SkippedMsg → Option (SkippedMsg × List SkippedMsg)
  | [] => none
  | e :: rest =>
    match decryptHeader P s header e.headerKey with
    | some obj =>
      if obj.msgNum = e.msgNum then some (e, rest)
      else
        match findSkipped P s header rest with
        | some (f, l) => some (f, e :: l)
        | none => none
    | none =>
      match findSkipped P s header rest with
      | some (f, l) => some (f, e :: l)
      | none => none

/-- The tail of `Session.prototype.decrypt` (lib/session.js lines
174-182): skip up to the header message number, derive the message key
from the receiving chain, bump the receive counter, and decrypt the
payload. -/
def decryptTail (P : Prims) (s : Session) (obj : HeaderObj)
    (header payload : Bytes) : Except SessionError Bytes × Session :=
  match skipMsgs P s obj.msgNum with
  | (.error e, s1) => (.error e, s1)
  | (.ok _, s1) =>
    match s1.recvChainKey with
    | none => (.error .nullKeyMaterial, s1)
    | some ck =>
      let mk := (kdfChain P ck).1
      let s2 := { s1 with
        recvChainKey := some (kdfChain P ck).2
        recvMsgNum := s1.recvMsgNum + 1 }
      (authDecrypt P mk s2.info (s2.ad ++ header) payload, s2)

/-- `Session.prototype.decrypt` (lib/session.js lines 111-183), with
the fresh ratchet key pair for the DH step passed in.  The returned
session is the state at the point the call returns or throws: the
source mutates `this` in place, so mutations made before a failure
persist. -/
def decrypt (P : Prims) (s : Session) (newKP : KeyPair)
    (header payload : Bytes) : Except SessionError Bytes × Session :=
  match findSkipped P s header s.skippedMsgs with
  | some (e, rest) =>
    let s1 := { s with skippedMsgs := rest }
    (authDecrypt P e.msgKey s1.info (s1.ad ++ header) payload, s1)
  | none =>
    match decryptHeader P s header s.recvHeaderKey with
    | some obj => decryptTail P s obj header payload
    | none =>
      match decryptHeader P s header s.recvNextHeaderKey with
      | none => (.error .headerDecryptFailed, s)
      | some obj =>
        match skipMsgs P s obj.prevChainLen with
        | (.error e, s1) => (.error e, s1)
        | (.ok _, s1) =>
          let s2 := { s1 with
            prevChainLen := s1.sendMsgNum
            sendMsgNum := 0
            recvMsgNum := 0
            peerKey := obj.pubKey
            sendHeaderKey := s1.sendNextHeaderKey
            recvHeaderKey := s1.recvNextHeaderKey }
          let s3 := dh P s2
          let ((ck, nhk), s4) := kdfRoot P s3
          let s5 := { s4 with recvChainKey := some ck, recvNextHeaderKey := some nhk }
          let s6 := { s5 with pubKey := newKP.pubKey, privKey := newKP.privKey }
          let s7 := dh P s6
          let ((ck2, nhk2), s8) := kdfRoot P s7
          let s9 := { s8 with sendChainKey := some ck2, sendNextHeaderKey := some nhk2 }
          decryptTail P s9 obj header payload

/-- `new Session()` followed by `Session.prototype.init` (lib/session.js
lines 54-82).  `freshKP` stands for the key pair `genKeyPair` would
draw when none is supplied; the three seed secrets are the `secKeys`
array. -/
def init (P : Prims) (ad info : Bytes) (keyPair : Option KeyPair)
    (freshKP : KeyPair) (peerKey : Option Bytes) (sk0 sk1 sk2 : Bytes) : Session :=
  let s := mk0
  let s :=
    match keyPair with
    | some kp => { s with pubKey := kp.pubKey, privKey := kp.privKey }
    | none => { s with pubKey := freshKP.pubKey, privKey := freshKP.privKey }
  let s := { s with ad := ad, info := info, rootKey := sk0 }
  match peerKey with
  | some pk =>
    let s := dh P { s with peerKey := pk }
    let ((ck, nhk), s) := kdfRoot P s
    { s with
      sendChainKey := some ck
      sendNextHeaderKey := some nhk
      sendHeaderKey := some sk1
      recvNextHeaderKey := some sk2 }
  | none => { s with recvNextHeaderKey := some sk1, sendNextHeaderKey := some sk2 }

end Session

/-- The client state fragment relevant to the X3DH handshake
(lib/client.js lines 16-35): identity key pair, current and previous
signed prekey, the one-time prekey set, and the session directory.  In
the source `pubSignPreKey` and `privSignPreKey` are two fields that are
always assigned together; they are modelled as one optional key pair. -/
structure Client where
  pubKey : Bytes
  privKey : Bytes
  signPreKey : Option KeyPair
  prevSignPreKey : Option KeyPair
  oneTimeKeys : List KeyPair
  sessions : List (String × Session)
deriving DecidableEq, Repr

namespace Client

/-- `Map.prototype.set` on the session directory: replace the entry
for the id when present, append it otherwise. -/
def sessionsSet (l : List (String × Session)) (sid : String) (s : Session) :
    List (String × Session) :=
  if l.any (fun p => p.1 = sid) then
    l.map (fun p => if p.1 = sid then (sid, s) else p)
  else l ++ [(sid, s)]

/-- `Map.prototype.get` on the session directory. -/
def sessionsGet (l : List (String × Session)) (sid : String) : Option Session :=
  (l.find? (fun p => p.1 = sid)).map (fun p => p.2)

/-- The state mutations of `Client.prototype.publishBundle`
(lib/client.js lines 154-177): move the current signed prekey, if any,
to `prevSignPreKey`; install the freshly generated signed prekey; and
append ten freshly generated one-time prekeys.  The fresh keys and the
signature randomness are external inputs; the HTTP publication is out
of scope. -/
def publishBundleRotate (c : Client) (newSignKP : KeyPair)
    (newOtks : List KeyPair) : Client :=
  let c :=
    match c.signPreKey with
    | some kp => { c with prevSignPreKey := some kp }
    | none => c
  { c with signPreKey := some newSignKP, oneTimeKeys := c.oneTimeKeys ++ newOtks }

/-- The signed-prekey selection of `Client.prototype.recvInitMessage`
(lib/client.js lines 318-326): the current signed prekey public is
compared first, then the retained previous one, and otherwise the call
fails.  A client that never published has a null `pubSignPreKey`, on
which `Buffer.equals` throws. -/
def selectPrivSignPreKey (c : Client) (spkPub : Bytes) :
    Except SessionError Bytes :=
  match c.signPreKey with
  | none => .error .nullKeyMaterial
  | some kp =>
    if spkPub = kp.pubKey then .ok kp.privKey
    else
      match c.prevSignPreKey with
      | some pkp =>
        if spkPub = pkp.pubKey then .ok pkp.privKey
        else .error .unknownSignedPrekey
      | none => .error .unknownSignedPrekey

/-- The seed-secret extraction loop shared by both handshake sides
(lib/client.js lines 246-253 and 344-351): HKDF of the padded IKM and
the three 32-byte chunks taken in order. -/
def x3dhSecrets (P : Prims) (dh1 dh2 dh3 dh4 info : Bytes) : Bytes × Bytes × Bytes :=
  let ikm := List.replicate 32 255 ++ dh1 ++ dh2 ++ dh3 ++ dh4
  let okm := Util.hkdf P ikm info 96 none
  let sk0 := bufSlice okm 0 32
  let okm1 := bufSliceFrom okm 32
  let sk1 := bufSlice okm1 0 32
  let okm2 := bufSliceFrom okm1 32
  let sk2 := bufSlice okm2 0 32
  (sk0, sk1, sk2)

/-- The initiator X3DH derivation (lib/client.js lines 238-253): the
four DH outputs against the fetched bundle, the associated data, and
the three seed secrets. -/
def initiatorHandshake (P : Prims) (c : Client) (ek : KeyPair)
    (peerKey spkPub otkPub info : Bytes) : Bytes × (Bytes × Bytes × Bytes) :=
  let dh1 := P.scalarMult c.privKey spkPub
  let dh2 := P.scalarMult ek.privKey peerKey
  let dh3 := P.scalarMult ek.privKey spkPub
  let dh4 := P.scalarMult ek.privKey otkPub
  (c.pubKey ++ peerKey, x3dhSecrets P dh1 dh2 dh3 dh4 info)

/-- The responder mirror X3DH derivation (lib/client.js lines 336-351)
from the selected signed-prekey private, the matched one-time prekey,
and the received message fields. -/
def responderHandshake (P : Prims) (c : Client) (spkPriv : Bytes) (otk : KeyPair)
    (msgPubKey msgEphemeralKey info : Bytes) : Bytes × (Bytes × Bytes × Bytes) :=
  let dh1 := P.scalarMult spkPriv msgPubKey
  let dh2 := P.scalarMult c.privKey msgEphemeralKey
  let dh3 := P.scalarMult spkPriv msgEphemeralKey
  let dh4 := P.scalarMult otk.privKey msgEphemeralKey
  (msgPubKey ++ c.pubKey, x3dhSecrets P dh1 dh2 dh3 dh4 info)

/-- The pure derivation of `Client.prototype.sendInitMessage` after the
bundle signature check (lib/client.js lines 235-259): the X3DH
derivation, the initiator session (whose ratchet key pair is the client
identity key pair and whose peer key is the recipient identity public),
and the initial encrypt.  Returns the initial `(header, payload)` and
the session as stored in the directory. -/
def sendInitSession (P : Prims) (c : Client) (ek : KeyPair)
    (peerKey spkPub otkPub info : Bytes) : Session :=
  let hsk := initiatorHandshake P c ek peerKey spkPub otkPub info
  Session.init P hsk.1 info (some { pubKey := c.pubKey, privKey := c.privKey })
    { pubKey := [], privKey := [] } (some peerKey) hsk.2.1 hsk.2.2.1 hsk.2.2.2

def sendInitMessage (P : Prims) (c : Client) (ek : KeyPair)
    (peerKey spkPub otkPub info plaintext nonce16 : Bytes) :
    Except SessionError ((Bytes × Bytes) × Session) :=
  match Session.encrypt P (sendInitSession P c ek peerKey spkPub otkPub info)
      nonce16 plaintext with
  | (.error e, _) => .error e
  | (.ok hp, ses1) => .ok (hp, ses1)

/-- The responder session `recvInitMessage` builds and registers: the
mirror X3DH derivation seeds a responder-side `Session.init` whose
ratchet key pair is the client identity key pair. -/
def recvInitSession (P : Prims) (c : Client) (spkPriv : Bytes) (otk : KeyPair)
    (msgPubKey msgEphemeralKey info : Bytes) : Session :=
  let hsk := responderHandshake P c spkPriv otk msgPubKey msgEphemeralKey info
  Session.init P hsk.1 info (some { pubKey := c.pubKey, privKey := c.privKey })
    { pubKey := [], privKey := [] } none hsk.2.1 hsk.2.2.1 hsk.2.2.2

/-- `Client.prototype.recvInitMessage` after the message fetch
(lib/client.js lines 310-358): select the signed-prekey private, look
up and remove the matching one-time prekey, derive the mirror DH
outputs and seed secrets, initialize a responder session (key pair =
the client identity key pair), register it in the session directory
under `sid`, and decrypt the initial message.  The source mutates the
client and the registered session object in place, so the returned
client reflects every mutation made up to a failure: a failed final
decrypt leaves the one-time prekey consumed and the session (in its
post-decrypt state) registered. -/
def recvInitMessage (P : Prims) (c : Client) (sid : String)
    (msgPubKey msgSpkPub msgEphemeralKey msgOtkPub header payload info : Bytes)
    (freshKP : KeyPair) : Except SessionError Bytes × Client :=
  match selectPrivSignPreKey c msgSpkPub with
  | .error e => (.error e, c)
  | .ok privSignPreKey =>
    match c.oneTimeKeys.find? (fun kp => kp.pubKey = msgOtkPub) with
    | none => (.error .unknownOneTimePrekey, c)
    | some otk =>
      let c1 := { c with
        oneTimeKeys := c.oneTimeKeys.filter (fun kp => ¬ otk.pubKey = kp.pubKey) }
      let ses := recvInitSession P c privSignPreKey otk msgPubKey msgEphemeralKey info
      let (r, ses1) := Session.decrypt P ses freshKP header payload
      (r, { c1 with sessions := sessionsSet c1.sessions sid ses1 })

end Client


/-!
Concrete instantiations of the primitives, used to evaluate the
embedding on closed inputs.  `evalPrims` is designed for cheap kernel
evaluation; `injPrims` has a provably injective keyed hash for the
theorems whose hypotheses demand one.  Both satisfy the primitive
contracts the theorems assume.
-/

/-- A cheap concrete keyed hash for closed evaluations: 32 entries
mixing both arguments positionally and globally. -/
def evalHmac (k d : Bytes) : Bytes :=
  (List.range 32).map (fun i =>
    k.getD i 0 * 2 + d.getD i 0 * 3 + d.foldl (· + ·) 0 * 5 + d.length * 7 + i + 1)

/-- A cheap concrete block cipher for closed evaluations: shift every
byte by a key-and-iv-derived offset. -/
def evalPrims : Prims :=
  { hmac := evalHmac
    aesEncrypt := fun k iv pt => pt.map (fun b => b + (k.getD 0 0 + iv.getD 0 0))
    aesDecrypt := fun k iv ct => some (ct.map (fun b => b - (k.getD 0 0 + iv.getD 0 0)))
    scalarMult := fun a b => List.zipWith (· + ·) a b }

/-- Injective encoding of a byte string into a natural number. -/
def encBytes : Bytes → Nat
  | [] => 0
  | a :: l => Nat.pair a (encBytes l) + 1

/-- A keyed hash that is injective in the pair of its arguments: the
whole pair is packed into the first of 32 entries. -/
def injHmac (k d : Bytes) : Bytes :=
  Nat.pair (encBytes k) (encBytes d) :: List.replicate 31 0

/-- Primitives with an injective keyed hash and an identity cipher. -/
def injPrims : Prims :=
  { hmac := injHmac
    aesEncrypt := fun _ _ pt => pt
    aesDecrypt := fun _ _ ct => some ct
    scalarMult := fun a b => List.zipWith (· + ·) a b }

deriving instance DecidableEq for Except

/-!
The block structure of `util.hkdf` at the lengths the session uses
(80 for the authenticated-encryption primitive, 96 for the root KDF).
-/

/-- The extract step of `util.hkdf` with the default zero salt. -/
def prkOf (P : Prims) (ikm : Bytes) : Bytes := P.hmac (List.replicate 32 0) ikm

/-- First expansion block of `util.hkdf`. -/
def blk1 (P : Prims) (key info : Bytes) : Bytes := P.hmac key (info ++ [1])

/-- Second expansion block of `util.hkdf`. -/
def blk2 (P : Prims) (key info : Bytes) : Bytes :=
  P.hmac key (blk1 P key info ++ info ++ [2])

/-- Third expansion block of `util.hkdf`. -/
def blk3 (P : Prims) (key info : Bytes) : Bytes :=
  P.hmac key (blk2 P key info ++ info ++ [3])

/-!
The contracts assumed of the external primitives: the keyed hash
returns 32 bytes and, symbolically, is injective in its argument pair;
the block cipher decrypts its own output.
-/

structure PrimsOk (P : Prims) : Prop where
  hmac_len : ∀ k d, (P.hmac k d).length = 32
  hmac_inj : ∀ k d k1 d1, P.hmac k d = P.hmac k1 d1 → k = k1 ∧ d = d1
  aes_rt : ∀ k iv pt, P.aesDecrypt k iv (P.aesEncrypt k iv pt) = some pt

/-- The over-the-wire encrypted header `Session.prototype.encrypt`
produces: the encrypted 40-byte cleartext header with the 16 random
nonce bytes appended. -/
def headerBytes (P : Prims) (S : Session) (hk n16 : Bytes) : Bytes :=
  Session.authEncrypt P hk S.info n16
    (S.pubKey ++ writeUInt32BE S.prevChainLen ++ writeUInt32BE S.sendMsgNum) ++ n16

/-- The receive-side root KDF input of the next DH ratchet step the
receiver `R` will perform on a header carrying the sender ratchet
public `S.pubKey`. -/
def nextOkm (P : Prims) (S R : Session) : Bytes :=
  Util.hkdf P (P.scalarMult R.privKey S.pubKey) R.info 96 (some R.rootKey)

/-- Sender `S` and receiver `R` are in the same ratchet epoch with all
previous messages delivered: `R` holds the matching header key, chain
key and counter for the next message `S` encrypts. -/
structure SameEpoch (P : Prims) (S R : Session) : Prop where
  ad_eq : R.ad = S.ad
  info_eq : R.info = S.info
  hk : ∃ k, S.sendHeaderKey = some k ∧ R.recvHeaderKey = some k
  nhk : R.recvNextHeaderKey = S.sendNextHeaderKey
  nhk_some : ∃ k, S.sendNextHeaderKey = some k
  ck : ∃ c, S.sendChainKey = some c ∧ R.recvChainKey = some c
  n_eq : R.recvMsgNum = S.sendMsgNum
  skipped : R.skippedMsgs = []
  pub_len : S.pubKey.length = 32
  ns_lt : S.sendMsgNum < 2 ^ 32
  pn_lt : S.prevChainLen < 2 ^ 32

/-- Sender `S` has ratcheted into an epoch receiver `R` has not seen
yet (the situation right after the handshake, and after every direction
change): `R` holds `S.sendHeaderKey` as its next header key, and the
sending chain `S` uses is exactly the one `R` will derive in its
DH ratchet step. -/
structure NextEpoch (P : Prims) (S R : Session) : Prop where
  ad_eq : R.ad = S.ad
  info_eq : R.info = S.info
  hk : ∃ k, S.sendHeaderKey = some k ∧ R.recvNextHeaderKey = some k
  hkr_miss : R.recvHeaderKey = none ∨
    ∃ k1, R.recvHeaderKey = some k1 ∧ S.sendHeaderKey ≠ some k1
  cks : S.sendChainKey = some (bufSliceFrom (nextOkm P S R) 32)
  nhks : S.sendNextHeaderKey = some (bufSliceFrom (nextOkm P S R) 64)
  sroot : S.rootKey = bufSlice (nextOkm P S R) 0 32
  pn_eq : S.prevChainLen = R.recvMsgNum
  ns_zero : S.sendMsgNum = 0
  skipped : R.skippedMsgs = []
  pub_len : S.pubKey.length = 32
  pn_lt : S.prevChainLen < 2 ^ 32

/-- `R` can decrypt the next message `S` encrypts: either both are in
the same epoch, or `S` has just ratcheted ahead. In-order delivery
keeps a session pair (in both orientations) inside this relation. -/
inductive Linked (P : Prims) (S R : Session) : Prop
  | same (h : SameEpoch P S R)
  | next (h : NextEpoch P S R)

/-- Concrete witness material: a handshake between two fixed key pairs
under the injective-hash primitives. -/
def witKpI : KeyPair := { pubKey := List.replicate 32 2, privKey := List.replicate 32 2 }

def witKpR : KeyPair := { pubKey := List.replicate 32 3, privKey := List.replicate 32 3 }

def witS : Session :=
  Session.init injPrims [9] [7] (some witKpI) witKpI (some witKpR.pubKey)
    (List.replicate 32 1) (List.replicate 32 11) (List.replicate 32 12)

def witR : Session :=
  Session.init injPrims [9] [7] (some witKpR) witKpR none
    (List.replicate 32 1) (List.replicate 32 11) (List.replicate 32 12)

/-!
Concrete scenario under the evaluation primitives: an initiator (bob)
and a responder (alice) complete a handshake seeded with fixed secrets;
bob encrypts one message; several tampered variants of it drive the
counterexamples and witnesses below.
-/

def scenAd : Bytes := [9, 9, 9]

def scenInfo : Bytes := [7, 7]

def scenSk0 : Bytes := List.replicate 32 1

def scenSk1 : Bytes := (List.range 32).map (fun i => i + 40)

def scenSk2 : Bytes := (List.range 32).map (fun i => 2 * i + 5)

def scenKpI : KeyPair := KeyPair.mk (List.replicate 32 2) (List.replicate 32 2)

def scenKpR : KeyPair := KeyPair.mk (List.replicate 32 3) (List.replicate 32 3)

def scenKpN : KeyPair := KeyPair.mk (List.replicate 32 5) (List.replicate 32 5)

def scenN16 : Bytes := List.replicate 16 4

def scenPt : Bytes := [10, 20, 30]

def scenBob : Session :=
  Session.init evalPrims scenAd scenInfo (some scenKpI) scenKpN (some scenKpR.pubKey)
    scenSk0 scenSk1 scenSk2

def scenAlice : Session :=
  Session.init evalPrims scenAd scenInfo (some scenKpR) scenKpN none scenSk0 scenSk1 scenSk2

def scenMsg : Bytes × Bytes :=
  match (Session.encrypt evalPrims scenBob scenN16 scenPt).1 with
  | .ok x => x
  | .error _ => ([], [])

/-- The payload with its last byte (a tag byte) incremented. -/
def scenTagFlip : Bytes := scenMsg.2.dropLast ++ [(scenMsg.2.getLast?).getD 0 + 1]

/-- The payload with its first byte (a ciphertext byte) incremented. -/
def scenCtFlip : Bytes := (scenMsg.2.getD 0 0 + 1) :: scenMsg.2.drop 1

/-- A well-formed encrypted header under alice's next header key whose
message number field is 11, past the skip bound. -/
def scenHdr11 : Bytes :=
  Session.authEncrypt evalPrims scenSk1 scenInfo scenN16
    (scenKpI.pubKey ++ writeUInt32BE 0 ++ writeUInt32BE 11) ++ scenN16

def scenGarbage : Bytes := List.replicate 60 1

/-- A session with a receiving chain whose counter is already past a
skip target of 0. -/
def scenSkipS : Session :=
  { scenAlice with recvMsgNum := 1, recvChainKey := some scenSk0 }

/-- Second definition for the C3 refinement, following the words of the
spec: chain_key = okm[32..64] (a 32-byte value), next_header_key =
okm[64..96]. -/
def kdfRootSpecC3 (P : Prims) (s : Session) : (Bytes × Bytes) × Session :=
  let okm := Util.hkdf P s.dhOutput s.info 96 (some s.rootKey)
  ((bufSlice okm 32 64, bufSlice okm 64 96), { s with rootKey := bufSlice okm 0 32 })

/-- The amended C3 description: chain_key is okm[32..96], 64 bytes. -/
def kdfRootAmendedC3 (P : Prims) (s : Session) : (Bytes × Bytes) × Session :=
  let okm := Util.hkdf P s.dhOutput s.info 96 (some s.rootKey)
  ((bufSlice okm 32 96, bufSlice okm 64 96), { s with rootKey := bufSlice okm 0 32 })

/-- Second definition for the C7 refinement, following the words of the
spec (section 4.2): okm = hkdf(ikm, info, 80) split into enc_key (32),
auth_key (32), iv (16); ciphertext then tag, the tag over the nonce. -/
def authEncryptSpecC7 (P : Prims) (ikm info nonce plaintext : Bytes) : Bytes :=
  let okm := Util.hkdf P ikm info 80 none
  let encKey := okm.take 32
  let authKey := (okm.drop 32).take 32
  let iv := (okm.drop 64).take 16
  P.aesEncrypt encKey iv plaintext ++ P.hmac authKey nonce

/-- Spec-side decryption for the C7 refinement: recompute the 80-byte
OKM, split the payload as ct then a 32-byte tag, verify the tag, then
decrypt, failing with InvalidTag on mismatch. -/
def authDecryptSpecC7 (P : Prims) (ikm info nonce payload : Bytes) :
    Except SessionError Bytes :=
  let okm := Util.hkdf P ikm info 80 none
  let encKey := okm.take 32
  let authKey := (okm.drop 32).take 32
  let iv := (okm.drop 64).take 16
  let ct := payload.take (payload.length - 32)
  let tag := payload.drop (payload.length - 32)
  if P.hmac authKey nonce = tag then
    match P.aesDecrypt encKey iv ct with
    | some pt => .ok pt
    | none => .error .badPadding
  else .error .invalidHmac

/-- The ciphertext part of `Session.authEncrypt`. -/
def aeCiphertext (P : Prims) (ikm info plaintext : Bytes) : Bytes :=
  let okm := Util.hkdf P ikm info 80 none
  P.aesEncrypt (bufSlice okm 0 32) (bufSliceFrom okm 64) plaintext

/-- The trailing tag of `Session.authEncrypt`: a MAC over the nonce. -/
def aeTag (P : Prims) (ikm info nonce : Bytes) : Bytes :=
  P.hmac (bufSlice (Util.hkdf P ikm info 80 none) 32 64) nonce

/-- A concrete tag with its first byte flipped. -/
def scenFlipTag : Bytes :=
  ((aeTag evalPrims scenSk0 scenInfo scenAd).getD 0 0 + 1) ::
    (aeTag evalPrims scenSk0 scenInfo scenAd).drop 1

/-- The receiving chain key after `j` chain steps. -/
def chainIter (P : Prims) (ck : Bytes) : Nat → Bytes
  | 0 => ck
  | j + 1 => (Session.kdfChain P (chainIter P ck j)).2

/-- The skipped-message entries `skipMsgs` enqueues: one per message
number in `[n, n + k)`, with the message key of the corresponding chain
step and the current receive header key. -/
def skippedRangeC6 (P : Prims) (hk : Option Bytes) (ck : Bytes) (n k : Nat) :
    List SkippedMsg :=
  (List.range k).map (fun j =>
    { headerKey := hk, msgKey := (Session.kdfChain P (chainIter P ck j)).1, msgNum := n + j })

/-- Concrete clients for the client-level witnesses. -/
def scenClientA : Client :=
  Client.mk (List.replicate 32 2) (List.replicate 32 2) none none [] []

def scenSpkB : KeyPair := KeyPair.mk (List.replicate 32 6) (List.replicate 32 6)

def scenOtkB : KeyPair := KeyPair.mk (List.replicate 32 7) (List.replicate 32 7)

def scenClientB : Client :=
  Client.mk (List.replicate 32 3) (List.replicate 32 3) (some scenSpkB) none [scenOtkB] []

def scenKp8 : KeyPair := KeyPair.mk (List.replicate 32 8) (List.replicate 32 8)

def scenKp9 : KeyPair := KeyPair.mk (List.replicate 32 9) (List.replicate 32 9)

theorem encBytes_injective : Function.Injective encBytes := by
  intro a b h
  induction a generalizing b with
  | nil => cases b with
    | nil => rfl
    | cons x l => simp [encBytes] at h
  | cons x l ih =>
    cases b with
    | nil => simp [encBytes] at h
    | cons y m =>
      simp only [encBytes, Nat.add_left_inj] at h
      obtain ⟨h1, h2⟩ := Nat.pair_eq_pair.mp h
      exact h1 ▸ (ih h2) ▸ rfl

theorem injHmac_injective (k d k1 d1 : Bytes) (h : injHmac k d = injHmac k1 d1) :
    k = k1 ∧ d = d1 := by
  simp only [injHmac, List.cons.injEq] at h
  obtain ⟨h1, h2⟩ := Nat.pair_eq_pair.mp h.1
  exact ⟨encBytes_injective h1, encBytes_injective h2⟩

theorem injHmac_length (k d : Bytes) : (injHmac k d).length = 32 := by
  simp [injHmac]

/-!
General lemmas about the byte-level helpers.
-/

theorem writeUInt32BE_length (n : Nat) : (writeUInt32BE n).length = 4 := rfl

theorem readUInt32BE_writeUInt32BE (n : Nat) (h : n < 2 ^ 32) :
    readUInt32BE (writeUInt32BE n) = n := by
  simp only [readUInt32BE, writeUInt32BE, List.getD, List.get?]
  simp only [List.getElem?_cons_zero, List.getElem?_cons_succ, Option.getD_some]
  omega

theorem bufSliceLastN_append (c t : Bytes) (n : Nat) (h : t.length = n) :
    bufSliceLastN (c ++ t) n = t := by
  simp [bufSliceLastN, h, List.drop_append_eq_append_drop]

theorem bufDropLastN_append (c t : Bytes) (n : Nat) (h : t.length = n) :
    bufDropLastN (c ++ t) n = c := by
  have : (c ++ t).length - n = c.length := by simp [h]
  rw [bufDropLastN, this, List.take_left]

theorem bufSlice_zero_left (a r : Bytes) (n : Nat) (h : a.length = n) :
    bufSlice (a ++ r) 0 n = a := by
  simp [bufSlice, ← h, List.take_left]

theorem bufSlice_mid (a r : Bytes) (n m : Nat) (h : a.length = n) :
    bufSlice (a ++ r) n (n + m) = r.take m := by
  subst h
  rw [bufSlice, List.take_append, List.drop_left]

theorem hkdfExpand_three (P : Prims) (key info : Bytes) :
    (Util.hkdfExpand P key info 3).2 =
      blk1 P key info ++ blk2 P key info ++ blk3 P key info := by
  simp [Util.hkdfExpand, blk1, blk2, blk3]

theorem hkdf80_eq (P : Prims) (ikm info : Bytes) :
    Util.hkdf P ikm info 80 none =
      (blk1 P (prkOf P ikm) info ++ blk2 P (prkOf P ikm) info ++
        blk3 P (prkOf P ikm) info).take 80 := by
  have h3 : (80 + 31) / 32 = 3 := by norm_num
  rw [Util.hkdf, h3, hkdfExpand_three]
  rfl

theorem hkdf96_eq (P : Prims) (ikm info salt : Bytes) :
    Util.hkdf P ikm info 96 (some salt) =
      (blk1 P (P.hmac salt ikm) info ++ blk2 P (P.hmac salt ikm) info ++
        blk3 P (P.hmac salt ikm) info).take 96 := by
  have h3 : (96 + 31) / 32 = 3 := by norm_num
  rw [Util.hkdf, h3, hkdfExpand_three]
  rfl

theorem hkdf_length_le (P : Prims) (ikm info : Bytes) (len : Nat) (salt : Option Bytes) :
    (Util.hkdf P ikm info len salt).length ≤ len := by
  simp [Util.hkdf, List.length_take_le]

theorem injPrimsOk : PrimsOk injPrims :=
  { hmac_len := injHmac_length
    hmac_inj := injHmac_injective
    aes_rt := fun _ _ _ => rfl }

theorem take32_append3 (t1 t2 t3 : Bytes) (l1 : t1.length = 32) :
    (t1 ++ t2 ++ t3).take 32 = t1 := by
  rw [List.append_assoc, ← l1, List.take_left]

theorem take64_append3 (t1 t2 t3 : Bytes) (l1 : t1.length = 32)
    (l2 : t2.length = 32) : (t1 ++ t2 ++ t3).take 64 = t1 ++ t2 := by
  have e : (64 : Nat) = (t1 ++ t2).length := by simp [l1, l2]
  rw [e, List.take_left]

theorem drop64_append3 (t1 t2 t3 : Bytes) (l1 : t1.length = 32)
    (l2 : t2.length = 32) : (t1 ++ t2 ++ t3).drop 64 = t3 := by
  have e : (64 : Nat) = (t1 ++ t2).length := by simp [l1, l2]
  rw [e, List.drop_left]

theorem drop32_append3 (t1 t2 t3 : Bytes) (l1 : t1.length = 32) :
    (t1 ++ t2 ++ t3).drop 32 = t2 ++ t3 := by
  rw [List.append_assoc, ← l1, List.drop_left]

/-- Under the 32-byte hash contract, the 80-byte OKM slices used by the
authenticated-encryption primitive are exactly the three blocks. -/
theorem okm80_slices (P : Prims) (hP : PrimsOk P) (ikm info : Bytes) :
    bufSlice (Util.hkdf P ikm info 80 none) 0 32 = blk1 P (prkOf P ikm) info ∧
    bufSlice (Util.hkdf P ikm info 80 none) 32 64 = blk2 P (prkOf P ikm) info ∧
    bufSliceFrom (Util.hkdf P ikm info 80 none) 64 =
      (blk3 P (prkOf P ikm) info).take 16 := by
  have l1 : (blk1 P (prkOf P ikm) info).length = 32 := hP.hmac_len _ _
  have l2 : (blk2 P (prkOf P ikm) info).length = 32 := hP.hmac_len _ _
  have l3 : (blk3 P (prkOf P ikm) info).length = 32 := hP.hmac_len _ _
  rw [hkdf80_eq]
  set t1 := blk1 P (prkOf P ikm) info
  set t2 := blk2 P (prkOf P ikm) info
  set t3 := blk3 P (prkOf P ikm) info
  refine ⟨?_, ?_, ?_⟩
  · rw [bufSlice, List.take_take]
    show ((t1 ++ t2 ++ t3).take 32).drop 0 = t1
    rw [List.drop_zero, take32_append3 t1 t2 t3 l1]
  · rw [bufSlice, List.take_take]
    show ((t1 ++ t2 ++ t3).take 64).drop 32 = t2
    rw [take64_append3 t1 t2 t3 l1 l2, ← l1, List.drop_left]
  · rw [bufSliceFrom]
    show ((t1 ++ t2 ++ t3).take (64 + 16)).drop 64 = t3.take 16
    rw [← List.take_drop, drop64_append3 t1 t2 t3 l1 l2]

/-- The authenticated-encryption primitive decrypts its own output
under the same key material. -/
theorem authDecrypt_authEncrypt (P : Prims) (hP : PrimsOk P) (ikm info nonce pt : Bytes) :
    Session.authDecrypt P ikm info nonce (Session.authEncrypt P ikm info nonce pt) = .ok pt := by
  simp only [Session.authDecrypt, Session.authEncrypt]
  set okm := Util.hkdf P ikm info 80 none
  set encKey := bufSlice okm 0 32
  set authKey := bufSlice okm 32 64
  set iv := bufSliceFrom okm 64
  set ct := P.aesEncrypt encKey iv pt
  set tag := P.hmac authKey nonce
  have hlen : tag.length = 32 := hP.hmac_len _ _
  rw [bufSliceLastN_append ct tag 32 hlen, bufDropLastN_append ct tag 32 hlen]
  simp [hP.aes_rt]

/-- Under a different input key, the recomputed tag cannot match: the
authenticated decryption reports an invalid tag. -/
theorem authDecrypt_wrong_ikm (P : Prims) (hP : PrimsOk P)
    (ikm1 ikm info nonce1 nonce pt : Bytes) (hne : ikm1 ≠ ikm) :
    Session.authDecrypt P ikm1 info nonce1 (Session.authEncrypt P ikm info nonce pt) =
      .error .invalidHmac := by
  simp only [Session.authDecrypt, Session.authEncrypt]
  set okm := Util.hkdf P ikm info 80 none
  set ct := P.aesEncrypt (bufSlice okm 0 32) (bufSliceFrom okm 64) pt
  set tag := P.hmac (bufSlice okm 32 64) nonce
  have hlen : tag.length = 32 := hP.hmac_len _ _
  rw [bufSliceLastN_append ct tag 32 hlen]
  have hcond : ¬ P.hmac (bufSlice (Util.hkdf P ikm1 info 80 none) 32 64) nonce1 = tag := by
    intro h
    have hk := (hP.hmac_inj _ _ _ _ h).1
    rw [(okm80_slices P hP ikm1 info).2.1, (okm80_slices P hP ikm info).2.1] at hk
    have hk2 := (hP.hmac_inj _ _ _ _ (hk : blk2 P (prkOf P ikm1) info = blk2 P (prkOf P ikm) info)).1
    have hk3 := (hP.hmac_inj _ _ _ _ (hk2 : prkOf P ikm1 = prkOf P ikm)).2
    exact hne hk3
  simp [hcond]

/-- Decrypting a well-formed encrypted header under the key it was
encrypted with recovers the ratchet public key and the two counters. -/
theorem decryptHeader_ok (P : Prims) (hP : PrimsOk P) (R : Session)
    (info hk n16 pub : Bytes) (a b : Nat) (hinfo : R.info = info)
    (h16 : n16.length = 16) (hpub : pub.length = 32)
    (ha : a < 2 ^ 32) (hb : b < 2 ^ 32) :
    Session.decryptHeader P R
      (Session.authEncrypt P hk info n16 (pub ++ writeUInt32BE a ++ writeUInt32BE b) ++ n16)
      (some hk) =
      some { pubKey := pub, prevChainLen := a, msgNum := b } := by
  simp only [Session.decryptHeader]
  set pay := Session.authEncrypt P hk info n16 (pub ++ writeUInt32BE a ++ writeUInt32BE b)
  rw [bufSliceLastN_append pay n16 16 h16, bufDropLastN_append pay n16 16 h16, hinfo,
    authDecrypt_authEncrypt P hP]
  have hlen : (pub ++ writeUInt32BE a ++ writeUInt32BE b).length = 40 := by
    simp [hpub, writeUInt32BE_length]
  have hnot : ¬ (pub ++ writeUInt32BE a ++ writeUInt32BE b).length <
      Session.PUBKEY_LEN + 8 := by
    rw [hlen]; simp [Session.PUBKEY_LEN]
  simp only [hnot, if_false]
  have e1 : bufSlice (pub ++ writeUInt32BE a ++ writeUInt32BE b) 0 Session.PUBKEY_LEN = pub := by
    rw [List.append_assoc]
    exact bufSlice_zero_left pub _ Session.PUBKEY_LEN hpub
  have e2 : bufSlice (pub ++ writeUInt32BE a ++ writeUInt32BE b) Session.PUBKEY_LEN
      (Session.PUBKEY_LEN + 4) = writeUInt32BE a := by
    rw [List.append_assoc, bufSlice_mid pub _ Session.PUBKEY_LEN 4 hpub]
    exact List.take_left (writeUInt32BE a) (writeUInt32BE b)
  have e3 : bufSlice (pub ++ writeUInt32BE a ++ writeUInt32BE b) (Session.PUBKEY_LEN + 4)
      (Session.PUBKEY_LEN + 4 + 4) = writeUInt32BE b := by
    have h36 : (pub ++ writeUInt32BE a).length = Session.PUBKEY_LEN + 4 := by
      simp [hpub, writeUInt32BE_length, Session.PUBKEY_LEN]
    rw [bufSlice_mid (pub ++ writeUInt32BE a) (writeUInt32BE b) (Session.PUBKEY_LEN + 4) 4 h36]
    exact List.take_of_length_le (le_of_eq (writeUInt32BE_length b))
  rw [e1, e2, e3, readUInt32BE_writeUInt32BE a ha, readUInt32BE_writeUInt32BE b hb]

/-- Decrypting an encrypted header under a different key fails. -/
theorem decryptHeader_wrongKey (P : Prims) (hP : PrimsOk P) (R : Session)
    (info hk k n16 hdr : Bytes) (hinfo : R.info = info) (h16 : n16.length = 16)
    (hne : k ≠ hk) :
    Session.decryptHeader P R (Session.authEncrypt P hk info n16 hdr ++ n16) (some k) =
      none := by
  simp only [Session.decryptHeader]
  set pay := Session.authEncrypt P hk info n16 hdr
  rw [bufSliceLastN_append pay n16 16 h16, bufDropLastN_append pay n16 16 h16, hinfo,
    authDecrypt_wrong_ikm P hP k hk info n16 n16 hdr hne]

/-- Symbolic evaluation of `Session.prototype.encrypt` on a session
with a sending chain: the header and payload it produces and the state
it leaves behind. -/
theorem encrypt_ok (P : Prims) (S : Session) (ck hk n16 pt : Bytes)
    (hck : S.sendChainKey = some ck) (hhk : S.sendHeaderKey = some hk)
    (hpn : S.prevChainLen < 2 ^ 32) (hns : S.sendMsgNum < 2 ^ 32) :
    Session.encrypt P S n16 pt =
      (.ok (headerBytes P S hk n16,
        Session.authEncrypt P (Session.kdfChain P ck).1 S.info
          (S.ad ++ headerBytes P S hk n16) pt),
       { S with sendChainKey := some (Session.kdfChain P ck).2,
                sendMsgNum := S.sendMsgNum + 1 }) := by
  cases S
  simp only [Session.encrypt, Session.encryptHeader, headerBytes] at *
  subst hck hhk
  norm_num at hpn hns
  simp [hpn, hns]

/-- `Session.prototype.skipMsgs` is a no-op (state included) when the
target does not exceed the current receive counter. -/
theorem skipMsgs_noop (P : Prims) (s : Session) (untl : Nat)
    (h : untl ≤ s.recvMsgNum) :
    Session.skipMsgs P s untl = (.ok (), s) := by
  rw [Session.skipMsgs]
  have hc : ¬ (s.recvMsgNum + Session.MAX_SKIP < untl) := by
    simp only [Session.MAX_SKIP]; omega
  rw [if_neg hc]
  cases hck : s.recvChainKey with
  | none => rfl
  | some ck =>
    have h0 : untl - s.recvMsgNum = 0 := Nat.sub_eq_zero_of_le h
    have hmax : max s.recvMsgNum untl = s.recvMsgNum := Nat.max_eq_left h
    rw [h0]
    simp only [Session.skipLoop, hmax, List.append_nil]
    cases s
    simp_all

/-- Symbolic evaluation of `Session.prototype.decrypt` on a message
produced by a same-epoch sender: the plaintext comes back and only the
receiving chain key and the receive counter change. -/
theorem decrypt_same_eq (P : Prims) (hP : PrimsOk P) (S R : Session) (kp : KeyPair)
    (hk ck n16 pt : Bytes) (h16 : n16.length = 16) (hL : SameEpoch P S R)
    (hhk : S.sendHeaderKey = some hk) (hrhk : R.recvHeaderKey = some hk)
    (hck : S.sendChainKey = some ck) (hrck : R.recvChainKey = some ck) :
    Session.decrypt P R kp (headerBytes P S hk n16)
      (Session.authEncrypt P (Session.kdfChain P ck).1 S.info
        (S.ad ++ headerBytes P S hk n16) pt) =
      (.ok pt,
       { R with recvChainKey := some (Session.kdfChain P ck).2,
                recvMsgNum := R.recvMsgNum + 1 }) := by
  have hhdr : Session.decryptHeader P R (headerBytes P S hk n16) R.recvHeaderKey =
      some ⟨S.pubKey, S.prevChainLen, S.sendMsgNum⟩ := by
    rw [hrhk, headerBytes]
    exact decryptHeader_ok P hP R S.info hk n16 S.pubKey S.prevChainLen S.sendMsgNum
      hL.info_eq h16 hL.pub_len hL.pn_lt hL.ns_lt
  rw [Session.decrypt, hL.skipped]
  simp only [Session.findSkipped]
  rw [hhdr]
  simp only [Session.decryptTail]
  rw [skipMsgs_noop P R S.sendMsgNum (le_of_eq hL.n_eq.symm)]
  simp only []
  rw [hrck]
  simp only []
  rw [hL.info_eq, hL.ad_eq, authDecrypt_authEncrypt P hP]
  simp [hL.skipped]

/-- Symbolic evaluation of `Session.prototype.decrypt` on the first
message of a new epoch: the receiver performs the DH ratchet step with
the fresh key pair `kp` and recovers the plaintext. -/
theorem decrypt_next_eq (P : Prims) (hP : PrimsOk P) (S R : Session) (kp : KeyPair)
    (hk n16 pt : Bytes) (h16 : n16.length = 16) (hL : NextEpoch P S R)
    (hhk : S.sendHeaderKey = some hk) (hrnhk : R.recvNextHeaderKey = some hk) :
    Session.decrypt P R kp (headerBytes P S hk n16)
      (Session.authEncrypt P (Session.kdfChain P (bufSliceFrom (nextOkm P S R) 32)).1 S.info
        (S.ad ++ headerBytes P S hk n16) pt) =
      (.ok pt,
       { R with
          prevChainLen := R.sendMsgNum
          sendMsgNum := 0
          recvMsgNum := 1
          peerKey := S.pubKey
          pubKey := kp.pubKey
          privKey := kp.privKey
          dhOutput := P.scalarMult kp.privKey S.pubKey
          rootKey := bufSlice (Util.hkdf P (P.scalarMult kp.privKey S.pubKey) R.info 96
            (some (bufSlice (nextOkm P S R) 0 32))) 0 32
          sendHeaderKey := R.sendNextHeaderKey
          recvHeaderKey := R.recvNextHeaderKey
          recvChainKey := some (Session.kdfChain P (bufSliceFrom (nextOkm P S R) 32)).2
          recvNextHeaderKey := some (bufSliceFrom (nextOkm P S R) 64)
          sendChainKey := some (bufSliceFrom (Util.hkdf P (P.scalarMult kp.privKey S.pubKey)
            R.info 96 (some (bufSlice (nextOkm P S R) 0 32))) 32)
          sendNextHeaderKey := some (bufSliceFrom (Util.hkdf P
            (P.scalarMult kp.privKey S.pubKey) R.info 96
            (some (bufSlice (nextOkm P S R) 0 32))) 64) }) := by
  have hNs : S.sendMsgNum < 2 ^ 32 := by rw [hL.ns_zero]; norm_num
  have hfail : Session.decryptHeader P R (headerBytes P S hk n16) R.recvHeaderKey = none := by
    rcases hL.hkr_miss with hnone | ⟨k1, hk1, hne⟩
    · rw [hnone]; rfl
    · rw [hk1, headerBytes]
      exact decryptHeader_wrongKey P hP R S.info hk k1 n16 _ hL.info_eq h16
        (fun he => hne (he ▸ hhk))
  have hhdr : Session.decryptHeader P R (headerBytes P S hk n16) R.recvNextHeaderKey =
      some ⟨S.pubKey, S.prevChainLen, S.sendMsgNum⟩ := by
    rw [hrnhk, headerBytes]
    exact decryptHeader_ok P hP R S.info hk n16 S.pubKey S.prevChainLen S.sendMsgNum
      hL.info_eq h16 hL.pub_len hL.pn_lt hNs
  rw [Session.decrypt, hL.skipped]
  simp only [Session.findSkipped]
  rw [hfail]
  simp only []
  rw [hhdr]
  simp only []
  rw [skipMsgs_noop P R S.prevChainLen (le_of_eq hL.pn_eq)]
  simp only [Session.dh, Session.kdfRoot, Session.decryptTail]
  rw [hL.ns_zero, skipMsgs_noop P _ 0 (Nat.zero_le _)]
  simp only [nextOkm]
  rw [hL.info_eq, hL.ad_eq, authDecrypt_authEncrypt P hP]
  simp [hL.skipped]

/-- Initialization of the two handshake parties (initiator holding the
responder ratchet public, responder holding none) places them in the
`NextEpoch` relation: the responder is ready to DH-ratchet onto the
initiator sending chain. -/
theorem init_next (P : Prims) (ad info sk0 sk1 sk2 : Bytes)
    (kpI kpR frI frR : KeyPair)
    (hdh : P.scalarMult kpR.privKey kpI.pubKey = P.scalarMult kpI.privKey kpR.pubKey)
    (hpub : kpI.pubKey.length = 32) :
    NextEpoch P (Session.init P ad info (some kpI) frI (some kpR.pubKey) sk0 sk1 sk2)
      (Session.init P ad info (some kpR) frR none sk0 sk1 sk2) := by
  refine ⟨?_, ?_, ?_, ?_, ?_, ?_, ?_, ?_, ?_, ?_, ?_, ?_⟩ <;>
    simp [Session.init, Session.mk0, Session.dh, Session.kdfRoot, nextOkm, hdh, hpub]

/-- One in-order exchange in the rollover direction: the sender of a
fresh epoch encrypts, the receiver DH-ratchets and decrypts; the
plaintext round-trips and both orientations of the pair link again
(same epoch forward, next epoch backward).  The extra hypotheses are
exactly the cross-direction facts that hold after `Session.init`
(where they are immediate) and after every previous exchange. -/
theorem exchange_next (P : Prims) (hP : PrimsOk P) (S R : Session) (kp : KeyPair)
    (pt n16 : Bytes) (h16 : n16.length = 16) (hL : NextEpoch P S R)
    (hkp : kp.pubKey.length = 32)
    (hdh : P.scalarMult kp.privKey S.pubKey = P.scalarMult S.privKey kp.pubKey)
    (hnhks : ∃ k2, R.sendNextHeaderKey = some k2 ∧ S.recvNextHeaderKey = some k2)
    (hSmiss : S.recvHeaderKey = none ∨
      ∃ k1, S.recvHeaderKey = some k1 ∧ R.sendNextHeaderKey ≠ some k1)
    (hNsNr : R.sendMsgNum = S.recvMsgNum) (hNs_lt : R.sendMsgNum < 2 ^ 32)
    (hSskip : S.skippedMsgs = []) :
    ∃ header payload S1 R1,
      Session.encrypt P S n16 pt = (.ok (header, payload), S1) ∧
      Session.decrypt P R kp header payload = (.ok pt, R1) ∧
      SameEpoch P S1 R1 ∧ NextEpoch P R1 S1 := by
  obtain ⟨hk, hhk, hrnhk⟩ := hL.hk
  have hns : S.sendMsgNum < 2 ^ 32 := by rw [hL.ns_zero]; norm_num
  refine ⟨_, _, _, _,
    encrypt_ok P S (bufSliceFrom (nextOkm P S R) 32) hk n16 pt hL.cks hhk hL.pn_lt hns,
    decrypt_next_eq P hP S R kp hk n16 pt h16 hL hhk hrnhk, ?_, ?_⟩
  · refine ⟨hL.ad_eq, hL.info_eq, ⟨hk, hhk, hrnhk⟩, hL.nhks.symm, ⟨_, hL.nhks⟩,
      ⟨_, rfl, rfl⟩, ?_, hL.skipped, hL.pub_len, ?_, hL.pn_lt⟩
    · show (1 : Nat) = S.sendMsgNum + 1
      rw [hL.ns_zero]
    · show S.sendMsgNum + 1 < 2 ^ 32
      rw [hL.ns_zero]; norm_num
  · have hok : Util.hkdf P (P.scalarMult S.privKey kp.pubKey) S.info 96
        (some S.rootKey) =
        Util.hkdf P (P.scalarMult kp.privKey S.pubKey) R.info 96
          (some (bufSlice (nextOkm P S R) 0 32)) := by
      rw [← hdh, ← hL.info_eq, hL.sroot]
    obtain ⟨k2, hRk2, hSk2⟩ := hnhks
    refine ⟨hL.ad_eq.symm, hL.info_eq.symm, ⟨k2, hRk2, hSk2⟩, ?_, ?_, ?_, ?_,
      hNsNr, rfl, hSskip, hkp, hNs_lt⟩
    · rcases hSmiss with hnone | ⟨k1, hk1, hne⟩
      · exact .inl hnone
      · exact .inr ⟨k1, hk1, fun he => hne (he ▸ hRk2 ▸ rfl)⟩
    · show some (bufSliceFrom (Util.hkdf P (P.scalarMult kp.privKey S.pubKey) R.info 96
        (some (bufSlice (nextOkm P S R) 0 32))) 32) = _
      rw [nextOkm]
      show _ = some (bufSliceFrom (Util.hkdf P (P.scalarMult S.privKey kp.pubKey) S.info 96
        (some S.rootKey)) 32)
      rw [hok]
      rw [nextOkm]
    · show some (bufSliceFrom (Util.hkdf P (P.scalarMult kp.privKey S.pubKey) R.info 96
        (some (bufSlice (nextOkm P S R) 0 32))) 64) = _
      rw [nextOkm]
      show _ = some (bufSliceFrom (Util.hkdf P (P.scalarMult S.privKey kp.pubKey) S.info 96
        (some S.rootKey)) 64)
      rw [hok]
      rw [nextOkm]
    · show bufSlice (Util.hkdf P (P.scalarMult kp.privKey S.pubKey) R.info 96
        (some (bufSlice (nextOkm P S R) 0 32))) 0 32 = _
      rw [nextOkm]
      show _ = bufSlice (Util.hkdf P (P.scalarMult S.privKey kp.pubKey) S.info 96
        (some S.rootKey)) 0 32
      rw [hok]
      rw [nextOkm]

/-- One in-order exchange inside an epoch: the same-epoch sender
encrypts, the receiver chain-steps and decrypts; the plaintext
round-trips and both orientations keep linking. -/
theorem exchange_same (P : Prims) (hP : PrimsOk P) (S R : Session) (kp : KeyPair)
    (pt n16 : Bytes) (h16 : n16.length = 16)
    (hSame : SameEpoch P S R) (hNext : NextEpoch P R S)
    (hns1 : S.sendMsgNum + 1 < 2 ^ 32) :
    ∃ header payload S1 R1,
      Session.encrypt P S n16 pt = (.ok (header, payload), S1) ∧
      Session.decrypt P R kp header payload = (.ok pt, R1) ∧
      SameEpoch P S1 R1 ∧ NextEpoch P R1 S1 := by
  obtain ⟨hk, hhk, hrhk⟩ := hSame.hk
  obtain ⟨ck, hck, hrck⟩ := hSame.ck
  refine ⟨_, _, _, _,
    encrypt_ok P S ck hk n16 pt hck hhk hSame.pn_lt hSame.ns_lt,
    decrypt_same_eq P hP S R kp hk ck n16 pt h16 hSame hhk hrhk hck hrck, ?_, ?_⟩
  · refine ⟨hSame.ad_eq, hSame.info_eq, ⟨hk, hhk, hrhk⟩, hSame.nhk, hSame.nhk_some,
      ⟨_, rfl, rfl⟩, ?_, hSame.skipped, hSame.pub_len, hns1, hSame.pn_lt⟩
    show R.recvMsgNum + 1 = S.sendMsgNum + 1
    rw [hSame.n_eq]
  · have hok : nextOkm P
        { R with
          recvChainKey := some (Session.kdfChain P ck).2
          recvMsgNum := R.recvMsgNum + 1 }
        { S with
          sendChainKey := some (Session.kdfChain P ck).2
          sendMsgNum := S.sendMsgNum + 1 } = nextOkm P R S := rfl
    obtain ⟨k2, hk2a, hk2b⟩ := hNext.hk
    refine ⟨hNext.ad_eq, hNext.info_eq, ⟨k2, hk2a, hk2b⟩, ?_, ?_, ?_, ?_, ?_,
      hNext.ns_zero, hNext.skipped, hNext.pub_len, hNext.pn_lt⟩
    · rcases hNext.hkr_miss with hnone | ⟨k1, hk1, hne⟩
      · exact .inl hnone
      · exact .inr ⟨k1, hk1, hne⟩
    · rw [hok]
      exact hNext.cks
    · rw [hok]
      exact hNext.nhks
    · rw [hok]
      exact hNext.sroot
    · exact hNext.pn_eq

/-- C1.  For every plaintext p, once a session pair has completed the
X3DH handshake and messages are delivered in order -- formalized as the
pair being in the `Linked` relation, which `init_next` shows holds
right after the handshake and which the preservation lemmas show is
maintained by in-order exchanges -- decrypting on one session the
(header, payload) pair produced by the peer session `encrypt` returns a
byte sequence equal to p. -/
theorem claimC1_inorder_roundtrip (P : Prims) (hP : PrimsOk P) (S R : Session)
    (hL : Linked P S R) (pt n16 : Bytes) (h16 : n16.length = 16) (kp : KeyPair) :
    ∃ header payload S1,
      Session.encrypt P S n16 pt = (.ok (header, payload), S1) ∧
      (Session.decrypt P R kp header payload).1 = .ok pt := by
  cases hL with
  | same h =>
    obtain ⟨hk, hhk, hrhk⟩ := h.hk
    obtain ⟨ck, hck, hrck⟩ := h.ck
    refine ⟨_, _, _, encrypt_ok P S ck hk n16 pt hck hhk h.pn_lt h.ns_lt, ?_⟩
    rw [decrypt_same_eq P hP S R kp hk ck n16 pt h16 h hhk hrhk hck hrck]
  | next h =>
    obtain ⟨hk, hhk, hrnhk⟩ := h.hk
    have hns : S.sendMsgNum < 2 ^ 32 := by rw [h.ns_zero]; norm_num
    refine ⟨_, _, _,
      encrypt_ok P S (bufSliceFrom (nextOkm P S R) 32) hk n16 pt h.cks hhk h.pn_lt hns, ?_⟩
    rw [decrypt_next_eq P hP S R kp hk n16 pt h16 h hhk hrnhk]

theorem claimC1_witness :
    (List.replicate 16 4 : Bytes).length = 16 ∧
    ∃ header payload S1,
      Session.encrypt injPrims witS (List.replicate 16 4) [10, 20, 30] =
        (.ok (header, payload), S1) ∧
      (Session.decrypt injPrims witR (KeyPair.mk (List.replicate 32 5)
        (List.replicate 32 5)) header payload).1 = .ok [10, 20, 30] :=
  ⟨by simp, claimC1_inorder_roundtrip injPrims injPrimsOk witS witR
    (.next (init_next injPrims [9] [7] (List.replicate 32 1) (List.replicate 32 11)
      (List.replicate 32 12) witKpI witKpR witKpI witKpR (by decide) (by decide)))
    [10, 20, 30] (List.replicate 16 4) (by simp)
    (KeyPair.mk (List.replicate 32 5) (List.replicate 32 5))⟩

/-- C3 counterexample: at an initiator session whose dhOutput and
rootKey are both set (scenBob, whose init ran the DH and root KDF),
`kdfRoot` does not return okm[32..64] as the chain key: it returns the
64-byte okm[32..96], as the source slices with `okm.slice(32)`. -/
theorem claimC3_counterexample :
    scenBob.dhOutput.length = 32 ∧ scenBob.rootKey.length = 32 ∧
    Session.kdfRoot evalPrims scenBob ≠ kdfRootSpecC3 evalPrims scenBob := by
  refine ⟨by decide, by decide, by decide⟩

/-- C3 (amended).  kdf_root computes okm = hkdf(ikm = dh, info, 96,
salt = RK), updates RK to okm[0..32], and returns chain_key equal to
okm[32..96] (a 64-byte value) and next_header_key equal to
okm[64..96]. -/
theorem claimC3_kdfRoot (P : Prims) (s : Session) :
    Session.kdfRoot P s = kdfRootAmendedC3 P s := by
  have h96 : (Util.hkdf P s.dhOutput s.info 96 (some s.rootKey)).take 96 =
      Util.hkdf P s.dhOutput s.info 96 (some s.rootKey) :=
    List.take_of_length_le (hkdf_length_le P s.dhOutput s.info 96 (some s.rootKey))
  simp only [Session.kdfRoot, kdfRootAmendedC3, bufSlice, bufSliceFrom, h96]

/-- C4.  For every session whose sending chain key is null (a freshly
initialized responder that has not decrypted yet), encrypt fails with
the NotReady error (the null-key-material failure) and does not
initialize a sending chain: the state is returned unchanged. -/
theorem claimC4_notReady (P : Prims) (s : Session) (n16 pt : Bytes)
    (h : s.sendChainKey = none) :
    Session.encrypt P s n16 pt = (.error .nullKeyMaterial, s) := by
  rw [Session.encrypt, h]

theorem claimC4_witness :
    scenAlice.sendChainKey = none ∧
    Session.encrypt evalPrims scenAlice scenN16 scenPt = (.error .nullKeyMaterial, scenAlice) :=
  ⟨by decide, claimC4_notReady evalPrims scenAlice scenN16 scenPt (by decide)⟩

/-- C7.  auth_encrypt derives okm = hkdf(ikm, info, 80) split into a
32-byte encryption key, a 32-byte auth key and a 16-byte IV, and
returns the CBC ciphertext followed by hmac(auth_key, nonce) (the tag
covers the nonce, not the ciphertext); auth_decrypt recomputes the same
okm, splits the payload as ct followed by a 32-byte tag, fails with
InvalidTag exactly when the recomputed tag differs, and otherwise
returns the CBC decryption of ct. -/
theorem claimC7_authRefinement (P : Prims) (ikm info nonce plaintext payload : Bytes) :
    Session.authEncrypt P ikm info nonce plaintext =
      authEncryptSpecC7 P ikm info nonce plaintext ∧
    Session.authDecrypt P ikm info nonce payload =
      authDecryptSpecC7 P ikm info nonce payload := by
  have hlen := hkdf_length_le P ikm info 80 none
  have henc : bufSlice (Util.hkdf P ikm info 80 none) 0 32 =
      (Util.hkdf P ikm info 80 none).take 32 := by
    simp [bufSlice]
  have hauth : bufSlice (Util.hkdf P ikm info 80 none) 32 64 =
      ((Util.hkdf P ikm info 80 none).drop 32).take 32 := by
    rw [bufSlice]
    exact (List.take_drop 32 32 _).symm
  have hiv : bufSliceFrom (Util.hkdf P ikm info 80 none) 64 =
      ((Util.hkdf P ikm info 80 none).drop 64).take 16 := by
    rw [bufSliceFrom]
    refine (List.take_of_length_le ?_).symm
    rw [List.length_drop]
    omega
  constructor <;>
    simp only [Session.authEncrypt, authEncryptSpecC7, Session.authDecrypt,
      authDecryptSpecC7, henc, hauth, hiv, bufSliceLastN, bufDropLastN]

/-- The authenticated decryption never raises the header-decrypt-failed
error: its only failures are the invalid tag and the padding error. -/
theorem authDecrypt_ne_headerFail (P : Prims) (ikm info nonce payload : Bytes) :
    Session.authDecrypt P ikm info nonce payload ≠ .error .headerDecryptFailed := by
  simp only [Session.authDecrypt]
  split
  · split <;> simp
  · simp

/-- `skipMsgs` either fails with the skip bound exceeded and an
untouched state, or succeeds. -/
theorem skipMsgs_cases (P : Prims) (s : Session) (u : Nat) :
    Session.skipMsgs P s u = (.error .tooManySkipped, s) ∨
    ∃ s1, Session.skipMsgs P s u = (.ok (), s1) := by
  rw [Session.skipMsgs]
  split
  · exact .inl rfl
  · cases s.recvChainKey
    · exact .inr ⟨s, rfl⟩
    · exact .inr ⟨_, rfl⟩

/-- The tail of decrypt never raises the header-decrypt-failed error. -/
theorem decryptTail_ne_headerFail (P : Prims) (s : Session) (obj : Session.HeaderObj)
    (h p : Bytes) :
    (Session.decryptTail P s obj h p).1 ≠ .error .headerDecryptFailed := by
  rw [Session.decryptTail]
  rcases skipMsgs_cases P s obj.msgNum with hc | ⟨s1, hc⟩ <;> rw [hc]
  · simp
  · cases hck : s1.recvChainKey
    · simp [hck]
    · simp only [hck]
      exact authDecrypt_ne_headerFail P _ _ _ _

/-- C2 (amended).  A decrypt call that fails with HeaderDecryptFailed
-- that is, one that fails before any header key authenticates the
incoming header -- leaves the session state unchanged.  (Failures after
a header authenticates keep every mutation made up to the failure
point; see the counterexample.) -/
theorem claimC2_failedHeaderLeavesState (P : Prims) (s : Session) (kp : KeyPair)
    (h p : Bytes)
    (herr : (Session.decrypt P s kp h p).1 = .error .headerDecryptFailed) :
    (Session.decrypt P s kp h p).2 = s := by
  rw [Session.decrypt] at herr ⊢
  cases hfs : Session.findSkipped P s h s.skippedMsgs with
  | some pr =>
    rw [hfs] at herr
    obtain ⟨e, rest⟩ := pr
    exact absurd herr (authDecrypt_ne_headerFail P _ _ _ _)
  | none =>
    rw [hfs] at herr
    cases hh1 : Session.decryptHeader P s h s.recvHeaderKey with
    | some obj =>
      rw [hh1] at herr
      exact absurd herr (decryptTail_ne_headerFail P _ _ _ _)
    | none =>
      rw [hh1] at herr
      cases hh2 : Session.decryptHeader P s h s.recvNextHeaderKey with
      | none => rfl
      | some obj =>
        rw [hh2] at herr
        simp only [] at herr
        rcases skipMsgs_cases P s obj.prevChainLen with hc | ⟨s1, hc⟩ <;>
          rw [hc] at herr
        · simp at herr
        · exact absurd herr (decryptTail_ne_headerFail P _ _ _ _)

/-- C2 counterexample: flipping the last payload byte of the first
message makes decrypt fail with the invalid-tag error, yet the session
state is not the state before the call: the DH-ratchet-step mutations
committed even though the payload decryption failed. -/
theorem claimC2_counterexample :
    (Session.decrypt evalPrims scenAlice scenKpN scenMsg.1 scenTagFlip).1 =
      .error .invalidHmac ∧
    (Session.decrypt evalPrims scenAlice scenKpN scenMsg.1 scenTagFlip).2 ≠ scenAlice := by
  decide

theorem claimC2_witness :
    (Session.decrypt evalPrims scenAlice scenKpN scenGarbage scenMsg.2).1 =
      .error .headerDecryptFailed ∧
    (Session.decrypt evalPrims scenAlice scenKpN scenGarbage scenMsg.2).2 = scenAlice :=
  ⟨by decide,
   claimC2_failedHeaderLeavesState evalPrims scenAlice scenKpN scenGarbage scenMsg.2
     (by decide)⟩

theorem authEncrypt_parts (P : Prims) (ikm info nonce pt : Bytes) :
    Session.authEncrypt P ikm info nonce pt =
      aeCiphertext P ikm info pt ++ aeTag P ikm info nonce := rfl

theorem evalHmac_length (k d : Bytes) : (evalHmac k d).length = 32 := by
  simp [evalHmac]

/-- C5 (amended).  Replacing the trailing 32-byte tag of a validly
produced payload with any different 32-byte value makes the payload
authentication fail with InvalidTag; replacing the ciphertext part by
anything at all passes the tag check (the tag covers only the nonce),
so a ciphertext modification is never reported as InvalidTag. -/
theorem claimC5_tagCheck (P : Prims) (hlen : ∀ k d, (P.hmac k d).length = 32)
    (ikm info nonce pt : Bytes) :
    (∀ tag1, tag1.length = 32 → tag1 ≠ aeTag P ikm info nonce →
      Session.authDecrypt P ikm info nonce (aeCiphertext P ikm info pt ++ tag1) =
        .error .invalidHmac) ∧
    (∀ ct1, Session.authDecrypt P ikm info nonce (ct1 ++ aeTag P ikm info nonce) ≠
      .error .invalidHmac) := by
  constructor
  · intro tag1 h32 hne
    simp only [Session.authDecrypt, aeCiphertext, aeTag] at hne ⊢
    rw [bufSliceLastN_append _ tag1 32 h32]
    rw [if_neg (fun hcond => hne hcond.symm)]
  · intro ct1
    simp only [Session.authDecrypt, aeTag]
    rw [bufSliceLastN_append ct1 _ 32 (hlen _ _), if_pos rfl]
    split <;> simp

/-- C5 counterexample: flipping the first payload byte (a ciphertext
byte) of the first message does not make decrypt fail with InvalidTag:
the call succeeds, returns a corrupted plaintext, and mutates the
session state. -/
theorem claimC5_counterexample :
    (Session.decrypt evalPrims scenAlice scenKpN scenMsg.1 scenCtFlip).1 ≠
      .error .invalidHmac ∧
    (Session.decrypt evalPrims scenAlice scenKpN scenMsg.1 scenCtFlip).1 ≠ .ok scenPt ∧
    (Session.decrypt evalPrims scenAlice scenKpN scenMsg.1 scenCtFlip).2 ≠ scenAlice := by
  decide

theorem claimC5_witness :
    (scenFlipTag.length = 32 ∧ scenFlipTag ≠ aeTag evalPrims scenSk0 scenInfo scenAd) ∧
    Session.authDecrypt evalPrims scenSk0 scenInfo scenAd
      (aeCiphertext evalPrims scenSk0 scenInfo scenPt ++ scenFlipTag) =
      .error .invalidHmac ∧
    Session.authDecrypt evalPrims scenSk0 scenInfo scenAd
      ([9, 9] ++ aeTag evalPrims scenSk0 scenInfo scenAd) ≠ .error .invalidHmac :=
  ⟨⟨by decide, by decide⟩,
   (claimC5_tagCheck evalPrims evalHmac_length scenSk0 scenInfo scenAd scenPt).1
     scenFlipTag (by decide) (by decide),
   (claimC5_tagCheck evalPrims evalHmac_length scenSk0 scenInfo scenAd scenPt).2 [9, 9]⟩

theorem chainIter_fold (P : Prims) (ck : Bytes) (j : Nat) :
    (Session.kdfChain P (chainIter P ck j)).2 = chainIter P ck (j + 1) := rfl

theorem chainIter_succ_left (P : Prims) (ck : Bytes) (j : Nat) :
    chainIter P ck (j + 1) = chainIter P ((Session.kdfChain P ck).2) j := by
  induction j with
  | zero => rfl
  | succ j ih => rw [chainIter, ih, chainIter]

theorem skipLoop_eq (P : Prims) (hk : Option Bytes) (ck : Bytes) (n k : Nat) :
    Session.skipLoop P hk ck n k = (skippedRangeC6 P hk ck n k, chainIter P ck k) := by
  induction k generalizing ck n with
  | zero => simp [Session.skipLoop, skippedRangeC6, chainIter]
  | succ k ih =>
    rw [Session.skipLoop, ih]
    have hrange : skippedRangeC6 P hk ck n (k + 1) =
        { headerKey := hk, msgKey := (Session.kdfChain P ck).1, msgNum := n } ::
          skippedRangeC6 P hk ((Session.kdfChain P ck).2) (n + 1) k := by
      simp only [skippedRangeC6, List.range_succ_eq_map, List.map_cons, List.map_map]
      congr 1
      apply List.map_congr_left
      intro j hj
      simp only [Function.comp, chainIter_fold, chainIter_succ_left,
        SkippedMsg.mk.injEq, eq_self_iff_true, true_and]
      omega
    rw [hrange, ← chainIter_succ_left]

/-- C6 (amended).  skip(until) fails with TooManySkipped exactly when
Nr + MAX_SKIP < until (MAX_SKIP = 10) and a failing skip call itself
leaves the state unchanged (a decrypt failing this way after the
next-header key authenticated has already committed the DH-step
mutations, as the counterexample shows); with a null receiving chain
key the state is untouched; otherwise skip enqueues one
(HKr, n, message_key) entry per n in [Nr, until) and sets
Nr = max(Nr, until). -/
theorem claimC6_skipBehavior (P : Prims) (s : Session) (untl : Nat) :
    ((Session.skipMsgs P s untl).1 = .error .tooManySkipped ↔
      s.recvMsgNum + Session.MAX_SKIP < untl) ∧
    (s.recvMsgNum + Session.MAX_SKIP < untl → (Session.skipMsgs P s untl).2 = s) ∧
    (s.recvChainKey = none →
      Session.skipMsgs P s untl =
        ((if s.recvMsgNum + Session.MAX_SKIP < untl then .error .tooManySkipped
          else .ok ()), s)) ∧
    (∀ ck, s.recvChainKey = some ck → ¬ s.recvMsgNum + Session.MAX_SKIP < untl →
      Session.skipMsgs P s untl = (.ok (),
        { s with
          recvChainKey := some (chainIter P ck (untl - s.recvMsgNum))
          recvMsgNum := max s.recvMsgNum untl
          skippedMsgs := s.skippedMsgs ++
            skippedRangeC6 P s.recvHeaderKey ck s.recvMsgNum (untl - s.recvMsgNum) })) := by
  refine ⟨⟨?_, ?_⟩, ?_, ?_, ?_⟩
  · intro h
    by_contra hc
    rw [Session.skipMsgs, if_neg hc] at h
    rcases hck : s.recvChainKey with _ | ck <;> rw [hck] at h <;> simp at h
  · intro h
    rw [Session.skipMsgs, if_pos h]
  · intro h
    rw [Session.skipMsgs, if_pos h]
  · intro h
    rw [Session.skipMsgs, h]
    split <;> rfl
  · intro ck hck hc
    rw [Session.skipMsgs, if_neg hc, hck]
    simp only [skipLoop_eq]

/-- C6 counterexample: (a) with Nr = 1 and CKr set, skip(0) succeeds
but leaves Nr = 1 instead of setting Nr = 0; (b) a decrypt of a
well-formed header carrying message number 11 fails with
TooManySkipped yet leaves the session mutated (the DH step had already
committed). -/
theorem claimC6_counterexample :
    ((Session.skipMsgs evalPrims scenSkipS 0).1 = .ok () ∧
     (Session.skipMsgs evalPrims scenSkipS 0).2.recvMsgNum = 1) ∧
    ((Session.decrypt evalPrims scenAlice scenKpN scenHdr11 scenMsg.2).1 =
      .error .tooManySkipped ∧
     (Session.decrypt evalPrims scenAlice scenKpN scenHdr11 scenMsg.2).2 ≠ scenAlice) := by
  decide

theorem claimC6_witness :
    (scenSkipS.recvChainKey = some scenSk0 ∧
      ¬ scenSkipS.recvMsgNum + Session.MAX_SKIP < 5) ∧
    Session.skipMsgs evalPrims scenSkipS 5 = (.ok (),
      { scenSkipS with
        recvChainKey := some (chainIter evalPrims scenSk0 (5 - scenSkipS.recvMsgNum))
        recvMsgNum := max scenSkipS.recvMsgNum 5
        skippedMsgs := scenSkipS.skippedMsgs ++
          skippedRangeC6 evalPrims scenSkipS.recvHeaderKey scenSk0 scenSkipS.recvMsgNum
            (5 - scenSkipS.recvMsgNum) }) :=
  ⟨⟨by decide, by decide⟩,
   (claimC6_skipBehavior evalPrims scenSkipS 5).2.2.2 scenSk0 (by decide) (by decide)⟩

/-- The two X3DH derivations agree whenever the four Diffie-Hellman
exchanges commute (which x25519 guarantees for genuine key pairs). -/
theorem handshake_agreement (P : Prims) (cA cB : Client) (ek spkB otkB : KeyPair)
    (info : Bytes)
    (h1 : P.scalarMult cA.privKey spkB.pubKey = P.scalarMult spkB.privKey cA.pubKey)
    (h2 : P.scalarMult ek.privKey cB.pubKey = P.scalarMult cB.privKey ek.pubKey)
    (h3 : P.scalarMult ek.privKey spkB.pubKey = P.scalarMult spkB.privKey ek.pubKey)
    (h4 : P.scalarMult ek.privKey otkB.pubKey = P.scalarMult otkB.privKey ek.pubKey) :
    Client.initiatorHandshake P cA ek cB.pubKey spkB.pubKey otkB.pubKey info =
      Client.responderHandshake P cB spkB.privKey otkB cA.pubKey ek.pubKey info := by
  rw [Client.initiatorHandshake, Client.responderHandshake, h1, h2, h3, h4]

/-- C8.  The initiator forms DH1..DH4 from (IK_A, EK) against the
fetched bundle, the responder the mirror DH1..DH4 from (SPK, IK_B,
OPK); both form IKM = 0xFF x 32 followed by DH1..DH4, OKM =
hkdf(IKM, info, 96) split into three 32-byte secrets in order, and
AD = IK_A.pub followed by IK_B.pub; under the Diffie-Hellman
commutation property of the four exchanges the two sides derive
identical (sk0, sk1, sk2) and identical AD. -/
theorem claimC8_handshakeAgreement (P : Prims) (cA cB : Client) (ek spkB otkB : KeyPair)
    (info : Bytes)
    (h1 : P.scalarMult cA.privKey spkB.pubKey = P.scalarMult spkB.privKey cA.pubKey)
    (h2 : P.scalarMult ek.privKey cB.pubKey = P.scalarMult cB.privKey ek.pubKey)
    (h3 : P.scalarMult ek.privKey spkB.pubKey = P.scalarMult spkB.privKey ek.pubKey)
    (h4 : P.scalarMult ek.privKey otkB.pubKey = P.scalarMult otkB.privKey ek.pubKey) :
    Client.initiatorHandshake P cA ek cB.pubKey spkB.pubKey otkB.pubKey info =
      Client.responderHandshake P cB spkB.privKey otkB cA.pubKey ek.pubKey info :=
  handshake_agreement P cA cB ek spkB otkB info h1 h2 h3 h4

theorem claimC8_witness :
    (evalPrims.scalarMult scenClientA.privKey scenSpkB.pubKey =
        evalPrims.scalarMult scenSpkB.privKey scenClientA.pubKey) ∧
    Client.initiatorHandshake evalPrims scenClientA scenKpN scenClientB.pubKey
        scenSpkB.pubKey scenOtkB.pubKey scenInfo =
      Client.responderHandshake evalPrims scenClientB scenSpkB.privKey scenOtkB
        scenClientA.pubKey scenKpN.pubKey scenInfo :=
  ⟨by decide,
   claimC8_handshakeAgreement evalPrims scenClientA scenClientB scenKpN scenSpkB scenOtkB
     scenInfo (by decide) (by decide) (by decide) (by decide)⟩

/-- Looking up a session id right after setting it returns the stored
session, whichever branch of the map-set semantics applied. -/
theorem sessionsGet_set (l : List (String × Session)) (sid : String) (s1 : Session) :
    Client.sessionsGet (Client.sessionsSet l sid s1) sid = some s1 := by
  rw [Client.sessionsSet]
  split
  · next hany =>
    rw [Client.sessionsGet]
    induction l with
    | nil => simp at hany
    | cons a l ih =>
      by_cases ha : a.1 = sid
      · simp [List.find?, ha]
      · simp only [List.map_cons, if_neg ha, List.find?]
        rw [decide_eq_false ha]
        apply ih
        simp only [List.any_cons] at hany
        rcases Bool.or_eq_true_iff.mp hany with h | h
        · exact absurd (of_decide_eq_true h) ha
        · exact h
  · next hany =>
    rw [Client.sessionsGet]
    have hnone : l.find? (fun p => p.1 = sid) = none := by
      rw [List.find?_eq_none]
      intro p hp hdec
      exact hany (List.any_eq_true.mpr ⟨p, hp, hdec⟩)
    rw [List.find?_append, hnone]
    simp [List.find?]

/-- C10.  When receive-initial-message passes the signed-prekey and
one-time-prekey lookups but the final decryption of the initial
(header, payload) fails, the client state has nonetheless changed: the
matched one-time prekey is gone from the one-time key set and the new
session (in its post-decrypt state) is registered in the session
directory under the session id; the failure undoes neither mutation. -/
theorem claimC10_partialMutation (P : Prims) (c : Client) (sid : String)
    (msgPubKey msgSpkPub msgEphemeralKey msgOtkPub header payload info : Bytes)
    (freshKP : KeyPair) (spriv : Bytes) (otk : KeyPair) (e : SessionError)
    (hsel : Client.selectPrivSignPreKey c msgSpkPub = .ok spriv)
    (hotk : c.oneTimeKeys.find? (fun kp => kp.pubKey = msgOtkPub) = some otk)
    (hdec : (Session.decrypt P
      (Client.recvInitSession P c spriv otk msgPubKey msgEphemeralKey info)
      freshKP header payload).1 = .error e) :
    (Client.recvInitMessage P c sid msgPubKey msgSpkPub msgEphemeralKey msgOtkPub
      header payload info freshKP).1 = .error e ∧
    (Client.recvInitMessage P c sid msgPubKey msgSpkPub msgEphemeralKey msgOtkPub
      header payload info freshKP).2.oneTimeKeys =
      c.oneTimeKeys.filter (fun kp => ¬ otk.pubKey = kp.pubKey) ∧
    Client.sessionsGet (Client.recvInitMessage P c sid msgPubKey msgSpkPub
      msgEphemeralKey msgOtkPub header payload info freshKP).2.sessions sid =
      some (Session.decrypt P
        (Client.recvInitSession P c spriv otk msgPubKey msgEphemeralKey info)
        freshKP header payload).2 := by
  simp only [Client.recvInitMessage, hsel, hotk]
  rcases hd : Session.decrypt P
      (Client.recvInitSession P c spriv otk msgPubKey msgEphemeralKey info)
      freshKP header payload with ⟨r, ses1⟩
  rw [hd] at hdec
  simp only [hd]
  exact ⟨hdec, by trivial, sessionsGet_set _ sid ses1⟩

theorem claimC10_witness :
    (Client.selectPrivSignPreKey scenClientB scenSpkB.pubKey = .ok scenSpkB.privKey ∧
     scenClientB.oneTimeKeys.find? (fun kp => kp.pubKey = scenOtkB.pubKey) = some scenOtkB ∧
     (Session.decrypt evalPrims
       (Client.recvInitSession evalPrims scenClientB scenSpkB.privKey scenOtkB
         scenClientA.pubKey scenKpN.pubKey scenInfo)
       scenKpN scenGarbage scenPt).1 = .error .headerDecryptFailed) ∧
    (Client.recvInitMessage evalPrims scenClientB "sid-1" scenClientA.pubKey
      scenSpkB.pubKey scenKpN.pubKey scenOtkB.pubKey scenGarbage scenPt scenInfo
      scenKpN).1 = .error .headerDecryptFailed ∧
    (Client.recvInitMessage evalPrims scenClientB "sid-1" scenClientA.pubKey
      scenSpkB.pubKey scenKpN.pubKey scenOtkB.pubKey scenGarbage scenPt scenInfo
      scenKpN).2.oneTimeKeys =
      scenClientB.oneTimeKeys.filter (fun kp => ¬ scenOtkB.pubKey = kp.pubKey) ∧
    Client.sessionsGet (Client.recvInitMessage evalPrims scenClientB "sid-1"
      scenClientA.pubKey scenSpkB.pubKey scenKpN.pubKey scenOtkB.pubKey scenGarbage
      scenPt scenInfo scenKpN).2.sessions "sid-1" =
      some (Session.decrypt evalPrims
        (Client.recvInitSession evalPrims scenClientB scenSpkB.privKey scenOtkB
          scenClientA.pubKey scenKpN.pubKey scenInfo)
        scenKpN scenGarbage scenPt).2 :=
  ⟨⟨by decide, by decide, by decide⟩,
   claimC10_partialMutation evalPrims scenClientB "sid-1" scenClientA.pubKey
     scenSpkB.pubKey scenKpN.pubKey scenOtkB.pubKey scenGarbage scenPt scenInfo
     scenKpN scenSpkB.privKey scenOtkB .headerDecryptFailed
     (by decide) (by decide) (by decide)⟩

theorem publishBundleRotate_keys (c : Client) (kp : KeyPair) (otks : List KeyPair) :
    (Client.publishBundleRotate c kp otks).pubKey = c.pubKey ∧
    (Client.publishBundleRotate c kp otks).privKey = c.privKey := by
  rw [Client.publishBundleRotate]
  cases c.signPreKey <;> simp

theorem publishBundleRotate_signPreKey (c : Client) (kp : KeyPair)
    (otks : List KeyPair) :
    (Client.publishBundleRotate c kp otks).signPreKey = some kp := by
  rw [Client.publishBundleRotate]

theorem publishBundleRotate_prev (c : Client) (kp : KeyPair) (otks : List KeyPair)
    (spk0 : KeyPair) (h : c.signPreKey = some spk0) :
    (Client.publishBundleRotate c kp otks).prevSignPreKey = some spk0 := by
  rw [Client.publishBundleRotate, h]

/-- After one signed-prekey rotation, the retained previous key still
resolves the old signed-prekey public. -/
theorem select_rotated_once (c : Client) (spk0 kp1 : KeyPair) (otks1 : List KeyPair)
    (hcur : c.signPreKey = some spk0) (hne : spk0.pubKey ≠ kp1.pubKey) :
    Client.selectPrivSignPreKey (Client.publishBundleRotate c kp1 otks1) spk0.pubKey =
      .ok spk0.privKey := by
  rw [Client.selectPrivSignPreKey, publishBundleRotate_signPreKey,
    publishBundleRotate_prev c kp1 otks1 spk0 hcur]
  simp [hne]

/-- After two rotations the old signed-prekey public resolves to
neither the current nor the previous key. -/
theorem select_rotated_twice (c : Client) (spk0 kp1 kp2 : KeyPair)
    (otks1 otks2 : List KeyPair) (hcur : c.signPreKey = some spk0)
    (h1 : spk0.pubKey ≠ kp1.pubKey) (h2 : spk0.pubKey ≠ kp2.pubKey) :
    Client.selectPrivSignPreKey
      (Client.publishBundleRotate (Client.publishBundleRotate c kp1 otks1) kp2 otks2)
      spk0.pubKey = .error .unknownSignedPrekey := by
  rw [Client.selectPrivSignPreKey, publishBundleRotate_signPreKey,
    publishBundleRotate_prev _ kp2 otks2 kp1 (publishBundleRotate_signPreKey c kp1 otks1)]
  simp [h1, h2]

/-- Rotation does not touch the identity keys, so the responder session
derivation is unchanged by it. -/
theorem recvInitSession_rotate (P : Prims) (c : Client) (kp : KeyPair)
    (otks : List KeyPair) (spriv : Bytes) (otk : KeyPair) (a b info : Bytes) :
    Client.recvInitSession P (Client.publishBundleRotate c kp otks) spriv otk a b info =
      Client.recvInitSession P c spriv otk a b info := by
  obtain ⟨hpub, hpriv⟩ := publishBundleRotate_keys c kp otks
  simp only [Client.recvInitSession, Client.responderHandshake, hpub, hpriv]

/-- C9.  The responder resolves the signed-prekey private by comparing
the message signed-prekey public first with the current signed prekey,
then with the single retained previous one, and otherwise fails with
UnknownSignedPrekey; consequently an initial message built against a
bundle still decrypts after exactly one bundle republication, and fails
with UnknownSignedPrekey (with the client state untouched) after
two. -/
theorem claimC9_prekeyRotation (P : Prims) (hP : PrimsOk P) (cA cB : Client)
    (ek spk0 otk kp1 kp2 : KeyPair) (otks1 otks2 : List KeyPair)
    (sid : String) (info pt n16 : Bytes) (freshKP freshKP2 : KeyPair)
    (hcur : cB.signPreKey = some spk0)
    (hne1 : spk0.pubKey ≠ kp1.pubKey) (hne2 : spk0.pubKey ≠ kp2.pubKey)
    (hotk1 : (Client.publishBundleRotate cB kp1 otks1).oneTimeKeys.find?
      (fun kp => kp.pubKey = otk.pubKey) = some otk)
    (h16 : n16.length = 16) (hpubA : cA.pubKey.length = 32)
    (hd1 : P.scalarMult cA.privKey spk0.pubKey = P.scalarMult spk0.privKey cA.pubKey)
    (hd2 : P.scalarMult ek.privKey cB.pubKey = P.scalarMult cB.privKey ek.pubKey)
    (hd3 : P.scalarMult ek.privKey spk0.pubKey = P.scalarMult spk0.privKey ek.pubKey)
    (hd4 : P.scalarMult ek.privKey otk.pubKey = P.scalarMult otk.privKey ek.pubKey)
    (hd5 : P.scalarMult cB.privKey cA.pubKey = P.scalarMult cA.privKey cB.pubKey) :
    ∃ header payload ses1,
      Client.sendInitMessage P cA ek cB.pubKey spk0.pubKey otk.pubKey info pt n16 =
        .ok ((header, payload), ses1) ∧
      (Client.recvInitMessage P (Client.publishBundleRotate cB kp1 otks1) sid
        cA.pubKey spk0.pubKey ek.pubKey otk.pubKey header payload info freshKP).1 =
        .ok pt ∧
      Client.recvInitMessage P (Client.publishBundleRotate
          (Client.publishBundleRotate cB kp1 otks1) kp2 otks2) sid
        cA.pubKey spk0.pubKey ek.pubKey otk.pubKey header payload info freshKP2 =
        (.error .unknownSignedPrekey,
          Client.publishBundleRotate (Client.publishBundleRotate cB kp1 otks1)
            kp2 otks2) := by
  have hagree : Client.initiatorHandshake P cA ek cB.pubKey spk0.pubKey otk.pubKey info =
      Client.responderHandshake P cB spk0.privKey otk cA.pubKey ek.pubKey info :=
    handshake_agreement P cA cB ek spk0 otk info hd1 hd2 hd3 hd4
  have hses : Client.recvInitSession P cB spk0.privKey otk cA.pubKey ek.pubKey info =
      Session.init P
        (Client.initiatorHandshake P cA ek cB.pubKey spk0.pubKey otk.pubKey info).1 info
        (some ⟨cB.pubKey, cB.privKey⟩) ⟨[], []⟩ none
        (Client.initiatorHandshake P cA ek cB.pubKey spk0.pubKey otk.pubKey info).2.1
        (Client.initiatorHandshake P cA ek cB.pubKey spk0.pubKey otk.pubKey info).2.2.1
        (Client.initiatorHandshake P cA ek cB.pubKey spk0.pubKey otk.pubKey info).2.2.2 := by
    rw [Client.recvInitSession, ← hagree]
  have hL : NextEpoch P (Client.sendInitSession P cA ek cB.pubKey spk0.pubKey otk.pubKey info)
      (Client.recvInitSession P cB spk0.privKey otk cA.pubKey ek.pubKey info) := by
    rw [hses]
    simp only [Client.sendInitSession]
    exact init_next P _ info _ _ _ ⟨cA.pubKey, cA.privKey⟩ ⟨cB.pubKey, cB.privKey⟩
      ⟨[], []⟩ ⟨[], []⟩ hd5 hpubA
  obtain ⟨hk, hhk, hrnhk⟩ := hL.hk
  have hns : (Client.sendInitSession P cA ek cB.pubKey spk0.pubKey otk.pubKey info).sendMsgNum
      < 2 ^ 32 := by rw [hL.ns_zero]; norm_num
  have henc := encrypt_ok P (Client.sendInitSession P cA ek cB.pubKey spk0.pubKey otk.pubKey info)
    (bufSliceFrom (nextOkm P (Client.sendInitSession P cA ek cB.pubKey spk0.pubKey otk.pubKey info)
      (Client.recvInitSession P cB spk0.privKey otk cA.pubKey ek.pubKey info)) 32)
    hk n16 pt hL.cks hhk hL.pn_lt hns
  have hdec := decrypt_next_eq P hP
    (Client.sendInitSession P cA ek cB.pubKey spk0.pubKey otk.pubKey info)
    (Client.recvInitSession P cB spk0.privKey otk cA.pubKey ek.pubKey info)
    freshKP hk n16 pt h16 hL hhk hrnhk
  refine ⟨headerBytes P (Client.sendInitSession P cA ek cB.pubKey spk0.pubKey otk.pubKey info) hk n16,
    Session.authEncrypt P
      (Session.kdfChain P (bufSliceFrom (nextOkm P (Client.sendInitSession P cA ek cB.pubKey spk0.pubKey otk.pubKey info) (Client.recvInitSession P cB spk0.privKey otk cA.pubKey ek.pubKey info)) 32)).1
      (Client.sendInitSession P cA ek cB.pubKey spk0.pubKey otk.pubKey info).info
      ((Client.sendInitSession P cA ek cB.pubKey spk0.pubKey otk.pubKey info).ad ++ headerBytes P (Client.sendInitSession P cA ek cB.pubKey spk0.pubKey otk.pubKey info) hk n16) pt,
    { (Client.sendInitSession P cA ek cB.pubKey spk0.pubKey otk.pubKey info) with
      sendChainKey := some (Session.kdfChain P (bufSliceFrom (nextOkm P (Client.sendInitSession P cA ek cB.pubKey spk0.pubKey otk.pubKey info) (Client.recvInitSession P cB spk0.privKey otk cA.pubKey ek.pubKey info)) 32)).2
      sendMsgNum := (Client.sendInitSession P cA ek cB.pubKey spk0.pubKey otk.pubKey info).sendMsgNum + 1 }, ?_, ?_, ?_⟩
  · rw [Client.sendInitMessage, henc]
  · simp only [Client.recvInitMessage,
      select_rotated_once cB spk0 kp1 otks1 hcur hne1, hotk1, recvInitSession_rotate,
      hdec]
  · rw [Client.recvInitMessage,
      select_rotated_twice cB spk0 kp1 kp2 otks1 otks2 hcur hne1 hne2]

theorem claimC9_witness :
    (scenClientB.signPreKey = some scenSpkB ∧ scenSpkB.pubKey ≠ scenKp8.pubKey ∧
      scenSpkB.pubKey ≠ scenKp9.pubKey) ∧
    ∃ header payload ses1,
      Client.sendInitMessage injPrims scenClientA scenKpN scenClientB.pubKey
        scenSpkB.pubKey scenOtkB.pubKey scenInfo scenPt scenN16 =
        .ok ((header, payload), ses1) ∧
      (Client.recvInitMessage injPrims (Client.publishBundleRotate scenClientB scenKp8 [])
        "sid-1" scenClientA.pubKey scenSpkB.pubKey scenKpN.pubKey scenOtkB.pubKey
        header payload scenInfo scenKpN).1 = .ok scenPt ∧
      Client.recvInitMessage injPrims
        (Client.publishBundleRotate (Client.publishBundleRotate scenClientB scenKp8 [])
          scenKp9 []) "sid-1" scenClientA.pubKey scenSpkB.pubKey scenKpN.pubKey
        scenOtkB.pubKey header payload scenInfo scenKpN =
        (.error .unknownSignedPrekey,
          Client.publishBundleRotate (Client.publishBundleRotate scenClientB scenKp8 [])
            scenKp9 []) :=
  ⟨⟨by decide, by decide, by decide⟩,
   claimC9_prekeyRotation injPrims injPrimsOk scenClientA scenClientB scenKpN scenSpkB
     scenOtkB scenKp8 scenKp9 [] [] "sid-1" scenInfo scenPt scenN16 scenKpN scenKpN
     (by decide) (by decide) (by decide) (by decide) (by decide) (by decide)
     (by decide) (by decide) (by decide) (by decide) (by decide)⟩

/-- Under the 32-byte hash contract, the 96-byte OKM of the root KDF is
exactly the three blocks, and its slices are as follows. -/
theorem okm96_slices (P : Prims) (hP : PrimsOk P) (ikm info salt : Bytes) :
    bufSlice (Util.hkdf P ikm info 96 (some salt)) 0 32 = blk1 P (P.hmac salt ikm) info ∧
    bufSliceFrom (Util.hkdf P ikm info 96 (some salt)) 32 =
      blk2 P (P.hmac salt ikm) info ++ blk3 P (P.hmac salt ikm) info ∧
    bufSliceFrom (Util.hkdf P ikm info 96 (some salt)) 64 = blk3 P (P.hmac salt ikm) info := by
  have l1 : (blk1 P (P.hmac salt ikm) info).length = 32 := hP.hmac_len _ _
  have l2 : (blk2 P (P.hmac salt ikm) info).length = 32 := hP.hmac_len _ _
  have l3 : (blk3 P (P.hmac salt ikm) info).length = 32 := hP.hmac_len _ _
  rw [hkdf96_eq]
  set t1 := blk1 P (P.hmac salt ikm) info
  set t2 := blk2 P (P.hmac salt ikm) info
  set t3 := blk3 P (P.hmac salt ikm) info
  have hfull : (t1 ++ t2 ++ t3).take 96 = t1 ++ t2 ++ t3 := by
    apply List.take_of_length_le
    simp [l1, l2, l3]
  rw [hfull]
  refine ⟨?_, ?_, ?_⟩
  · rw [bufSlice]
    have : (t1 ++ t2 ++ t3).take 32 = t1 := take32_append3 t1 t2 t3 l1
    rw [this, List.drop_zero]
  · rw [bufSliceFrom, drop32_append3 t1 t2 t3 l1]
  · rw [bufSliceFrom, drop64_append3 t1 t2 t3 l1 l2]

